import Mathlib

/-! # The signup / signin server (`server.js`)

A shallow embedding of the two request handlers of `server.js`, of the two regular
expressions they validate with, and of the helpers `formatDatatoSend` and
`generateUserName`, followed by the properties of the credential-handling contract.

* A JavaScript string is the list of its UTF-16 code units (`JSString`); `s.length` in the
  source is `List.length` here, and a regular expression without the `u` flag consumes one
  code unit per character class.
* A regular expression is a term of `Regex`; `RegExp.prototype.test` for an anchored pattern
  is the derivative matcher `accepts`, shown equal to the language `Lang` of the expression.
* The handlers run in the monad `M`: a state (the user collection and the trace of external
  calls) threaded through, and JavaScript exceptions as `Except`.
-/

namespace Server

/-- A JavaScript string: its UTF-16 code units. -/
abbrev JSString := List Nat

/-- The code units of a Lean string literal (a code point above `0xFFFF` becomes its
surrogate pair). -/
def utf16 (s : String) : JSString :=
  s.toList.flatMap fun c =>
    if c.toNat < 65536 then [c.toNat]
    else [55296 + (c.toNat - 65536) / 1024, 56320 + (c.toNat - 65536) % 1024]

/-! ## Regular expressions -/

/-- The regular expressions used by `server.js`: character classes, concatenation,
alternation and the star; `empty` (no string) only arises in derivatives. -/
inductive Regex where
  | empty : Regex
  | eps : Regex
  | cls : (Nat → Bool) → Regex
  | seq : Regex → Regex → Regex
  | alt : Regex → Regex → Regex
  | star : Regex → Regex

namespace Regex

/-- The quantifier `r+`. -/
def plus (r : Regex) : Regex := seq r (star r)

/-- The quantifier `r?`. -/
def opt (r : Regex) : Regex := alt r eps

/-- The literal character `c`. -/
def chr (c : Nat) : Regex := cls fun x => x == c

/-- The quantifier `r{lo,hi}`, unrolled. -/
def rep (r : Regex) : Nat → Nat → Regex
  | 0, 0 => eps
  | 0, h + 1 => opt (seq r (rep r 0 h))
  | _ + 1, 0 => empty
  | l + 1, h + 1 => seq r (rep r l h)

/-- The strings a regular expression matches in full. -/
def Lang : Regex → JSString → Prop
  | empty, _ => False
  | eps, s => s = []
  | cls p, s => ∃ c, p c = true ∧ s = [c]
  | seq r q, s => ∃ s₁ s₂, s = s₁ ++ s₂ ∧ Lang r s₁ ∧ Lang q s₂
  | alt r q, s => Lang r s ∨ Lang q s
  | star r, s => ∃ parts : List JSString, s = parts.flatten ∧ ∀ p ∈ parts, Lang r p

/-- Whether the expression matches the empty string. -/
def nullable : Regex → Bool
  | empty => false
  | eps => true
  | cls _ => false
  | seq r q => nullable r && nullable q
  | alt r q => nullable r || nullable q
  | star _ => true

/-- The Brzozowski derivative: what remains to be matched after reading `c`. -/
def deriv (c : Nat) : Regex → Regex
  | empty => empty
  | eps => empty
  | cls p => if p c then eps else empty
  | seq r q => if nullable r then alt (seq (deriv c r) q) (deriv c q) else seq (deriv c r) q
  | alt r q => alt (deriv c r) (deriv c q)
  | star r => seq (deriv c r) (star r)

/-- The anchored match `^r$`: the whole input is matched by `r`. -/
def accepts (r : Regex) : JSString → Bool
  | [] => nullable r
  | c :: cs => accepts (deriv c r) cs

/-- The lookahead `(?=r)` at the start of the input: some initial segment is matched by `r`. -/
def lookahead (r : Regex) : JSString → Bool
  | [] => nullable r
  | c :: cs => nullable r || lookahead (deriv c r) cs

end Regex

/-- A pattern `^(?=l₁)…(?=lₙ)body$`: lookaheads at the start, then an anchored body. -/
structure Pattern where
  lookaheads : List Regex
  body : Regex

/-- The method `RegExp.prototype.test` on a string. -/
def Pattern.test (p : Pattern) (s : JSString) : Bool :=
  p.lookaheads.all (fun l => l.lookahead s) && p.body.accepts s

/-! ### Character classes -/

/-- The class `\d`. -/
def isDigit (c : Nat) : Bool := 48 ≤ c && c ≤ 57

/-- The class `[a-z]`. -/
def isLower (c : Nat) : Bool := 97 ≤ c && c ≤ 122

/-- The class `[A-Z]`. -/
def isUpper (c : Nat) : Bool := 65 ≤ c && c ≤ 90

/-- The class `\w`, which is `[A-Za-z0-9_]`. -/
def isWord (c : Nat) : Bool := isUpper c || isLower c || isDigit c || c == 95

/-- The class `[\.-]`: a dot or a hyphen. -/
def isDotHyphen (c : Nat) : Bool := c == 46 || c == 45

/-- A line terminator: LF, CR, U+2028 or U+2029. -/
def isLineTerminator (c : Nat) : Bool := c == 10 || c == 13 || c == 8232 || c == 8233

/-- The class `.` (no `s` flag): anything but a line terminator. -/
def isDot (c : Nat) : Bool := !isLineTerminator c

/-- The sub-expression `\w+([\.-]?\w+)*`, used on both sides of the `@`. -/
def wordRunsRegex : Regex :=
  .seq (.plus (.cls isWord)) (.star (.seq (.opt (.cls isDotHyphen)) (.plus (.cls isWord))))

/-- The sub-expression `(\.\w{2,3})+`. -/
def suffixRegex : Regex :=
  .plus (.seq (.chr 46) (.rep (.cls isWord) 2 3))

/-- The constant `emailRegex`: `/^\w+([\.-]?\w+)*@\w+([\.-]?\w+)*(\.\w{2,3})+$/`. -/
def emailRegex : Pattern where
  lookaheads := []
  body := .seq wordRunsRegex (.seq (.chr 64) (.seq wordRunsRegex suffixRegex))

/-- The constant `passwordRegex`: `/^(?=.*\d)(?=.*[a-z])(?=.*[A-Z]).{6,20}$/`. -/
def passwordRegex : Pattern where
  lookaheads :=
    [ .seq (.star (.cls isDot)) (.cls isDigit),
      .seq (.star (.cls isDot)) (.cls isLower),
      .seq (.star (.cls isDot)) (.cls isUpper) ]
  body := .rep (.cls isDot) 6 20

/-! ## Strings -/

/-- The method `String.prototype.split` for a separator of one code unit. -/
def split (sep : Nat) : JSString → List JSString
  | [] => [[]]
  | c :: cs =>
    if c == sep then [] :: split sep cs
    else
      match split sep cs with
      | [] => [[c]]
      | p :: ps => (c :: p) :: ps

/-- The method `String.prototype.substring(start, end)`: both indices are clamped to the
length and swapped when out of order. -/
def substring (s : JSString) (start stop : Nat) : JSString :=
  let a := min start s.length
  let b := min stop s.length
  (s.drop (min a b)).take (max a b - min a b)

/-! ## Values, the environment and the world -/

/-- A thrown JavaScript error, as far as the handlers look at it: its `code` property, if it
has one, and its `message`. -/
structure JSError where
  code : Option Nat
  message : String
deriving DecidableEq

/-- The sub-document `personal_info` of a user document. -/
structure PersonalInfo where
  fullname : JSString
  email : JSString
  password : JSString
  username : JSString
  profile_img : Option JSString
deriving DecidableEq

/-- A user document. -/
structure User where
  _id : Nat
  personal_info : PersonalInfo
deriving DecidableEq

/-- The fields the signup handler passes to `new User`. -/
structure NewUser where
  fullname : JSString
  email : JSString
  password : JSString
  username : JSString
deriving DecidableEq

/-- The third argument of `jwt.sign`. -/
structure SignOptions where
  expiresIn : Option Nat
deriving DecidableEq

/-- The payload object given to `jwt.sign`: its claims, name and value. -/
abbrev Payload := List (String × Nat)

/-- The calls that leave `server.js`. -/
inductive Call where
  | bcryptHash
  | bcryptCompare
  | jwtSign
  | nanoid
  | userExists
  | userFindOne
  | userSave
deriving DecidableEq

/-- What is recorded of an external call: the call with its arguments. -/
inductive Event where
  | hash (data : JSString) (saltRounds : Nat)
  | compare (data encrypted : JSString)
  | sign (payload : Payload) (secret : JSString) (options : Option SignOptions)
  | nanoid
  | exists (username : JSString)
  | findOne (email : JSString)
  | save (doc : User)
  | consoleError (label message : String)
deriving DecidableEq

/-- What one request finds outside `server.js`: the environment variable, the library
functions as they answer during this request, the two facts of the user schema the handlers
depend on, and the fault each external call meets, if any. -/
structure Env where
  /-- The variable `process.env.SECRET_ACCESS_KEY`. -/
  SECRET_ACCESS_KEY : JSString
  /-- The result of `bcrypt.hash(data, saltRounds)`. -/
  bcryptHash : JSString → Nat → JSString
  /-- The result of `bcrypt.compare(data, encrypted)`. -/
  bcryptCompare : JSString → JSString → Bool
  /-- The result of `jwt.sign(payload, secret, options)`. -/
  jwtSign : Payload → JSString → Option SignOptions → JSString
  /-- The identifier `nanoid()` returns. -/
  nanoid : JSString
  /-- An identifier of `nanoid()` has the default size, 21 characters. -/
  nanoid_length : nanoid.length = 21
  /-- Whether the schema declares `personal_info.username` unique. -/
  uniqueUsername : Bool
  /-- The schema default of `personal_info.profile_img`. -/
  profileImgDefault : Option JSString
  /-- The error an external call throws instead of answering. -/
  fault : Call → Option JSError

/-- The state a request runs in: the user collection and the trace of external calls. -/
structure World where
  users : List User
  trace : List Event
deriving DecidableEq

/-- The handlers' monad: environment and world in, a value or a thrown error and the world
out. A thrown error keeps the world reached so far. -/
def M (α : Type) : Type := Env → World → Except JSError α × World

namespace M

/-- Sequencing: a thrown error skips the rest. -/
def bind {α β : Type} (m : M α) (f : α → M β) : M β := fun e w =>
  match m e w with
  | (.ok a, w') => f a e w'
  | (.error err, w') => (.error err, w')

instance : Monad M where
  pure a := fun _ w => (.ok a, w)
  bind := M.bind

/-- The statement `try m catch (err) h`. -/
def tryCatch {α : Type} (m : M α) (h : JSError → M α) : M α := fun e w =>
  match m e w with
  | (.ok a, w') => (.ok a, w')
  | (.error err, w') => h err e w'

/-- The environment of the request. -/
def env : M Env := fun e w => (.ok e, w)

/-- An external call: it is recorded in the trace, then throws the fault the environment holds
for it or else answers. -/
def call {α : Type} (c : Call) (ev : Event) (answer : Env → World → Except JSError α × World) :
    M α := fun e w =>
  let w₁ : World := ⟨w.users, w.trace ++ [ev]⟩
  match e.fault c with
  | some err => (.error err, w₁)
  | none => answer e w₁

end M

/-- The call `console.error(label, message)`. -/
def consoleError (label message : String) : M Unit := fun _ w =>
  (.ok (), ⟨w.users, w.trace ++ [.consoleError label message]⟩)

/-- The call `bcrypt.hash(data, saltRounds)`. -/
def bcrypt.hash (data : JSString) (saltRounds : Nat) : M JSString :=
  M.call .bcryptHash (.hash data saltRounds) fun e w => (.ok (e.bcryptHash data saltRounds), w)

/-- The call `bcrypt.compare(data, encrypted)`. -/
def bcrypt.compare (data encrypted : JSString) : M Bool :=
  M.call .bcryptCompare (.compare data encrypted) fun e w =>
    (.ok (e.bcryptCompare data encrypted), w)

/-- The call `jwt.sign(payload, secretOrPrivateKey)`, without options. -/
def jwt.sign (payload : Payload) (secret : JSString) : M JSString :=
  M.call .jwtSign (.sign payload secret none) fun e w => (.ok (e.jwtSign payload secret none), w)

/-- The call `nanoid()`. -/
def nanoid : M JSString :=
  M.call .nanoid .nanoid fun e w => (.ok e.nanoid, w)

/-! ### The user collection -/

/-- The error of a unique index that already holds the key (MongoDB code 11000). -/
def duplicateKeyError : JSError := ⟨some 11000, "E11000 duplicate key error collection"⟩

/-- An identifier no document of the collection has. -/
def freshId (users : List User) : Nat := (users.map fun u => u._id).foldr max 0 + 1

/-- Modelled from the spec: the query `User.exists` on `personal_info.username` of the model
`./Schema/User.js`, which is absent: whether a stored user has exactly this username. -/
def User.exists (username : JSString) : M Bool :=
  M.call .userExists (.exists username) fun _ w =>
    (.ok (w.users.any fun u => u.personal_info.username == username), w)

/-- Modelled from the spec: the query `User.findOne` on `personal_info.email` of the absent
model: the stored user with exactly this email, if there is one. -/
def User.findOne (email : JSString) : M (Option User) :=
  M.call .userFindOne (.findOne email) fun _ w =>
    (.ok (w.users.find? fun u => u.personal_info.email == email), w)

/-- Modelled from the spec: the constructor `new User` of the absent model: a document with a
store-assigned unique identifier, the fields given, and `profile_img` defaulted. -/
def User.new (fields : NewUser) : M User := fun e w =>
  (.ok ⟨freshId w.users,
    ⟨fields.fullname, fields.email, fields.password, fields.username, e.profileImgDefault⟩⟩, w)

/-- Modelled from the spec: the method `save` of a document of the absent model: the document
is added, unless a unique index (on email, and on username where the schema says so) already
holds its key, which is a duplicate-key error. -/
def User.save (user : User) : M User :=
  M.call .userSave (.save user) fun e w =>
    if (w.users.any fun u => u.personal_info.email == user.personal_info.email) ||
        (e.uniqueUsername &&
          w.users.any fun u => u.personal_info.username == user.personal_info.username) then
      (.error duplicateKeyError, w)
    else
      (.ok user, ⟨w.users ++ [user], w.trace⟩)

/-! ## The handlers -/

/-- The object `formatDatatoSend` returns. -/
structure UserData where
  access_token : JSString
  profile_img : Option JSString
  username : JSString
  fullname : JSString
deriving DecidableEq

/-- A JSON response body: an `error` message or the user data. -/
inductive Body where
  | error (message : String)
  | data (d : UserData)
deriving DecidableEq

/-- The response `res.status(status).json(body)`. -/
structure Response where
  status : Nat
  body : Body
deriving DecidableEq

/-- The body of a signup request. -/
structure SignupBody where
  fullname : JSString
  email : JSString
  password : JSString

/-- The body of a signin request. -/
structure SigninBody where
  email : JSString
  password : JSString

/-- The helper `formatDatatoSend`. -/
def formatDatatoSend (user : User) : M UserData := do
  let e ← M.env
  let access_token ← jwt.sign [("id", user._id)] e.SECRET_ACCESS_KEY
  pure
    { access_token := access_token
      profile_img := user.personal_info.profile_img
      username := user.personal_info.username
      fullname := user.personal_info.fullname }

/-- The helper `generateUserName`. -/
def generateUserName (email : JSString) : M JSString := do
  let username := (split 64 email).headD []
  let uniqueUsername ← User.exists username
  if uniqueUsername then do
    let id ← nanoid
    pure (username ++ substring id 0 5)
  else
    pure username

/-- The message of a rejected full name. -/
def fullnameMessage : String := "Full name must be greater than 3 characters."

/-- The message of a rejected email. -/
def emailMessage : String := "Invalid email. Please check your input."

/-- The message of a rejected password. -/
def passwordMessage : String :=
  "Password must be 6-20 characters and include numeric, uppercase, and lowercase letters."

/-- The handler of `POST /signup`. -/
def signup (req : SignupBody) : M Response :=
  M.tryCatch
    (if req.fullname.length < 3 then
      pure ⟨403, .error fullnameMessage⟩
    else if req.email.length == 0 || !emailRegex.test req.email then
      pure ⟨403, .error emailMessage⟩
    else if !passwordRegex.test req.password then
      pure ⟨403, .error passwordMessage⟩
    else do
      let hashed_password ← bcrypt.hash req.password 6
      let username ← generateUserName req.email
      let user ← User.new ⟨req.fullname, req.email, hashed_password, username⟩
      let savedUser ← User.save user
      let d ← formatDatatoSend savedUser
      pure ⟨200, .data d⟩)
    fun err =>
      if err.code == some 11000 then
        pure ⟨500, .error "Email already exists."⟩
      else do
        consoleError "Signup error:" err.message
        pure ⟨500, .error "Internal Server Error"⟩

/-- The handler of `POST /signin`. -/
def signin (req : SigninBody) : M Response :=
  M.tryCatch
    (do
      let user ← User.findOne req.email
      match user with
      | none => pure ⟨403, .error "Email not found."⟩
      | some user =>
        let isMatch ← bcrypt.compare req.password user.personal_info.password
        if !isMatch then
          pure ⟨403, .error "Incorrect password."⟩
        else do
          let d ← formatDatatoSend user
          pure ⟨200, .data d⟩)
    fun err => do
      consoleError "Signin error:" err.message
      pure ⟨500, .error "Internal Server Error"⟩

/-! ## The properties the specification states -/

/-- The password rule of the specification: length 6 to 20, at least one digit, one lowercase
letter and one uppercase letter (length in code units, letters and digits those of ASCII). -/
def passwordRule (s : JSString) : Bool :=
  decide (6 ≤ s.length) && decide (s.length ≤ 20) &&
    s.any isDigit && s.any isLower && s.any isUpper

/-- A letter: `[A-Za-z]`. -/
def isLetter (c : Nat) : Bool := isUpper c || isLower c

/-- Runs of word characters with single dots or hyphens only between runs, read from the left;
the flag tells whether the character before was a word character. -/
def wordRunsFrom : Bool → JSString → Bool
  | b, [] => b
  | b, c :: cs =>
    if isWord c then wordRunsFrom true cs
    else if isDotHyphen c && b then wordRunsFrom false cs
    else false

/-- A non-empty string of runs of word characters with single dots or hyphens only between
runs. -/
def wordRuns (s : JSString) : Bool := wordRunsFrom false s

/-- The part of an email before its first `@`. -/
def localPart (s : JSString) : JSString := s.takeWhile fun c => c != 64

/-- The part of an email after its first `@`. -/
def afterAt (s : JSString) : JSString := (s.dropWhile fun c => c != 64).drop 1

/-- The top-level segment: the characters after the last dot. -/
def topLevel (d : JSString) : JSString := (d.reverse.takeWhile fun c => c != 46).reverse

/-- The domain: the characters before the last dot. -/
def domainPart (d : JSString) : JSString := ((d.reverse.dropWhile fun c => c != 46).drop 1).reverse

/-- The shape `local-part@domain.tld` of the specification: exactly one `@`, local part and
domain runs of word characters with single dots or hyphens between them, and a top-level
segment of 2 to 3 characters of the class `tld`. -/
def emailShape (tld : Nat → Bool) (s : JSString) : Bool :=
  s.count 64 == 1 && wordRuns (localPart s) && (afterAt s).contains 46 &&
    wordRuns (domainPart (afterAt s)) &&
    decide (2 ≤ (topLevel (afterAt s)).length) && decide ((topLevel (afterAt s)).length ≤ 3) &&
    (topLevel (afterAt s)).all tld

/-! ## Vocabulary of the statements -/

/-- The world after one more recorded call. -/
def World.record (w : World) (ev : Event) : World := ⟨w.users, w.trace ++ [ev]⟩

/-- The part of an email `generateUserName` starts from: what stands before the first `@`. -/
def emailLocal (email : JSString) : JSString := (split 64 email).headD []

/-- Whether the collection holds a user of this username. -/
def usernameTaken (w : World) (username : JSString) : Bool :=
  w.users.any fun u => u.personal_info.username == username

/-- Whether the collection holds a user of this email. -/
def emailTaken (w : World) (email : JSString) : Bool :=
  w.users.any fun u => u.personal_info.email == email

/-- The username `generateUserName` arrives at when its calls answer. -/
def allocated (e : Env) (w : World) (email : JSString) : JSString :=
  if usernameTaken w (emailLocal email) then emailLocal email ++ substring e.nanoid 0 5
  else emailLocal email

/-- The document signup saves when its calls answer. -/
def newUser (e : Env) (w : World) (req : SignupBody) : User :=
  ⟨freshId w.users, ⟨req.fullname, req.email, e.bcryptHash req.password 6,
    allocated e w req.email, e.profileImgDefault⟩⟩

/-- Whether a unique index of the collection refuses the document. -/
def duplicateKey (e : Env) (w : World) (user : User) : Bool :=
  emailTaken w user.personal_info.email ||
    (e.uniqueUsername && usernameTaken w user.personal_info.username)

/-- The data `formatDatatoSend` returns for a user when the signer answers. -/
def userData (e : Env) (user : User) : UserData :=
  { access_token := e.jwtSign [("id", user._id)] e.SECRET_ACCESS_KEY none
    profile_img := user.personal_info.profile_img
    username := user.personal_info.username
    fullname := user.personal_info.fullname }

/-- The calls `generateUserName` records when they answer. -/
def allocationTrace (w : World) (email : JSString) : List Event :=
  if usernameTaken w (emailLocal email) then [.exists (emailLocal email), .nanoid]
  else [.exists (emailLocal email)]

/-- The trace of a signup whose calls answered up to the `save`. -/
def savedTrace (e : Env) (w : World) (req : SignupBody) : List Event :=
  w.trace ++ [.hash req.password 6] ++ allocationTrace w req.email ++ [.save (newUser e w req)]

/-- The response of the `catch` clause of signup to a thrown error. -/
def signupCaught (err : JSError) : Response :=
  if err.code == some 11000 then ⟨500, .error "Email already exists."⟩
  else ⟨500, .error "Internal Server Error"⟩

/-- A signup request that passes the three checks. -/
def validSignup (req : SignupBody) : Bool :=
  !decide (req.fullname.length < 3) &&
    !(req.email.length == 0 || !emailRegex.test req.email) &&
    passwordRegex.test req.password

/-- An environment in which no external call faults. -/
def Env.faultless (e : Env) : Prop := ∀ c, e.fault c = none

/-- Whether an event is a call of the signer. -/
def Event.isSign : Event → Bool
  | .sign _ _ _ => true
  | _ => false

/-- A string that, read after a word character, leaves the reader after a word character, and
that holds no `@`. -/
def KeepsRuns (x : JSString) : Prop :=
  (∀ rest, wordRunsFrom true (x ++ rest) = wordRunsFrom true rest) ∧ ∀ c ∈ x, c ≠ 64

/-! ## Concrete inputs -/

/-- An environment in which every call answers: a hash that prefixes its input, the matching
comparison, a signer that lists the claims and the secret, and a fixed `nanoid`. -/
def demoEnv : Env where
  SECRET_ACCESS_KEY := utf16 "secret"
  bcryptHash := fun data _ => utf16 "$2b$06$" ++ data
  bcryptCompare := fun data encrypted => decide (encrypted = utf16 "$2b$06$" ++ data)
  jwtSign := fun payload secret _ => utf16 "jwt:" ++ (payload.map fun c => c.2) ++ secret
  nanoid := utf16 "V1StGXR8_Z5jdHi6B-myT"
  nanoid_length := by decide
  uniqueUsername := true
  profileImgDefault := none
  fault := fun _ => none

/-- The environment `demoEnv`, but with a schema that does not declare the username unique. -/
def looseEnv : Env :=
  { demoEnv with uniqueUsername := false }

/-- The world before any request. -/
def emptyWorld : World := ⟨[], []⟩

/-- The signup request of the end-to-end example of the specification. -/
def aliceRequest : SignupBody :=
  ⟨utf16 "Alice Smith", utf16 "alice@example.com", utf16 "Abcde1"⟩

/-- A collection holding the usernames `alice` and `aliceV1StG`. -/
def crowdedWorld : World :=
  ⟨[⟨1, ⟨utf16 "Alice Smith", utf16 "alice@example.com", utf16 "$2b$06$Abcde1", utf16 "alice",
      none⟩⟩,
    ⟨2, ⟨utf16 "Alice V", utf16 "aliceV1StG@example.com", utf16 "$2b$06$Abcde2",
      utf16 "aliceV1StG", none⟩⟩], []⟩

/-! ## Correctness of the matcher -/

namespace Regex

theorem nullable_iff (r : Regex) : nullable r = true ↔ Lang r [] := by
  induction r with
  | empty => simp [nullable, Lang]
  | eps => simp [nullable, Lang]
  | cls p => simp [nullable, Lang]
  | seq r q ihr ihq =>
    simp only [nullable, Lang, Bool.and_eq_true, ihr, ihq]
    constructor
    · rintro ⟨h₁, h₂⟩
      exact ⟨[], [], rfl, h₁, h₂⟩
    · rintro ⟨s₁, s₂, h, h₁, h₂⟩
      have h' := h.symm
      rw [List.append_eq_nil] at h'
      obtain ⟨rfl, rfl⟩ := h'
      exact ⟨h₁, h₂⟩
  | alt r q ihr ihq => simp [nullable, Lang, ihr, ihq]
  | star r _ =>
    simp only [nullable, Lang, true_iff]
    exact ⟨[], rfl, by simp⟩

theorem lang_star_cons (r : Regex) (c : Nat) (s : JSString) :
    Lang (star r) (c :: s) ↔ ∃ s₁ s₂, s = s₁ ++ s₂ ∧ Lang r (c :: s₁) ∧ Lang (star r) s₂ := by
  constructor
  · rintro ⟨parts, hs, hp⟩
    induction parts with
    | nil => simp at hs
    | cons p ps ih =>
      cases p with
      | nil =>
        rw [List.flatten_cons, List.nil_append] at hs
        exact ih hs fun q hq => hp q (List.mem_cons_of_mem _ hq)
      | cons d p =>
        rw [List.flatten_cons, List.cons_append] at hs
        obtain ⟨rfl, rfl⟩ := List.cons.inj hs
        exact ⟨p, ps.flatten, rfl, hp _ (List.mem_cons_self _ _),
          ps, rfl, fun q hq => hp q (List.mem_cons_of_mem _ hq)⟩
  · rintro ⟨s₁, s₂, rfl, h₁, parts, rfl, hp⟩
    refine ⟨(c :: s₁) :: parts, by simp, ?_⟩
    intro q hq
    rcases List.mem_cons.mp hq with rfl | hq
    · exact h₁
    · exact hp q hq

theorem deriv_iff (r : Regex) (c : Nat) (s : JSString) :
    Lang (deriv c r) s ↔ Lang r (c :: s) := by
  induction r generalizing s with
  | empty => simp [deriv, Lang]
  | eps => simp [deriv, Lang]
  | cls p =>
    by_cases h : p c = true
    · simp only [deriv, h, if_true, Lang]
      constructor
      · rintro rfl
        exact ⟨c, h, rfl⟩
      · rintro ⟨d, _, hd⟩
        exact (List.cons.inj hd).2
    · simp only [deriv, h, Lang, false_iff]
      rintro ⟨d, hd, heq⟩
      obtain ⟨rfl, -⟩ := List.cons.inj heq
      exact h hd
  | seq r q ihr ihq =>
    have key : Lang (seq r q) (c :: s) ↔
        (∃ s₁ s₂, s = s₁ ++ s₂ ∧ Lang r (c :: s₁) ∧ Lang q s₂) ∨
          (Lang r [] ∧ Lang q (c :: s)) := by
      constructor
      · rintro ⟨s₁, s₂, h, h₁, h₂⟩
        cases s₁ with
        | nil =>
          rw [List.nil_append] at h
          subst h
          exact Or.inr ⟨h₁, h₂⟩
        | cons d s₁ =>
          rw [List.cons_append] at h
          obtain ⟨rfl, rfl⟩ := List.cons.inj h
          exact Or.inl ⟨s₁, s₂, rfl, h₁, h₂⟩
      · rintro (⟨s₁, s₂, rfl, h₁, h₂⟩ | ⟨h₁, h₂⟩)
        · exact ⟨c :: s₁, s₂, rfl, h₁, h₂⟩
        · exact ⟨[], c :: s, rfl, h₁, h₂⟩
    rw [key]
    by_cases hn : nullable r = true
    · simp only [deriv, hn, if_true, Lang, ihr, ihq, (nullable_iff r).mp hn, true_and]
    · have hn' : ¬ Lang r [] := fun h => hn ((nullable_iff r).mpr h)
      simp only [deriv, hn, Lang, ihr, hn', false_and, or_false]
  | alt r q ihr ihq => simp only [deriv, Lang, ihr, ihq]
  | star r ih =>
    rw [lang_star_cons]
    simp only [deriv, Lang, ih]

theorem accepts_iff (r : Regex) (s : JSString) : accepts r s = true ↔ Lang r s := by
  induction s generalizing r with
  | nil => exact nullable_iff r
  | cons c cs ih => rw [accepts, ih, deriv_iff]

theorem lookahead_iff (r : Regex) (s : JSString) :
    lookahead r s = true ↔ ∃ s₁ s₂, s = s₁ ++ s₂ ∧ Lang r s₁ := by
  induction s generalizing r with
  | nil =>
    rw [lookahead, nullable_iff]
    constructor
    · intro h
      exact ⟨[], [], rfl, h⟩
    · rintro ⟨s₁, s₂, h, h₁⟩
      have h' := h.symm
      rw [List.append_eq_nil] at h'
      rw [h'.1] at h₁
      exact h₁
  | cons c cs ih =>
    rw [lookahead, Bool.or_eq_true, ih, nullable_iff]
    constructor
    · rintro (h | ⟨s₁, s₂, rfl, h₁⟩)
      · exact ⟨[], c :: cs, rfl, h⟩
      · exact ⟨c :: s₁, s₂, rfl, (deriv_iff r c s₁).mp h₁⟩
    · rintro ⟨s₁, s₂, h, h₁⟩
      cases s₁ with
      | nil => exact Or.inl h₁
      | cons d s₁ =>
        rw [List.cons_append] at h
        obtain ⟨rfl, rfl⟩ := List.cons.inj h
        exact Or.inr ⟨s₁, s₂, rfl, (deriv_iff r c s₁).mpr h₁⟩

end Regex

/-! ## The languages of the two patterns -/

namespace Regex

theorem lang_star_nil (r : Regex) : Lang (star r) [] := ⟨[], rfl, by simp⟩

theorem lang_star_append (r : Regex) {a b : JSString} (ha : Lang r a) (hb : Lang (star r) b) :
    Lang (star r) (a ++ b) := by
  obtain ⟨parts, rfl, hp⟩ := hb
  refine ⟨a :: parts, by simp, ?_⟩
  intro q hq
  rcases List.mem_cons.mp hq with rfl | hq
  · exact ha
  · exact hp q hq

/-- Induction over the iterations of a star. -/
theorem lang_star_induction (r : Regex) (P : JSString → Prop) (h0 : P [])
    (hstep : ∀ a b, Lang r a → P b → P (a ++ b)) {s : JSString} (hs : Lang (star r) s) : P s := by
  obtain ⟨parts, rfl, hp⟩ := hs
  induction parts with
  | nil => exact h0
  | cons p ps ih =>
    rw [List.flatten_cons]
    exact hstep p _ (hp p (List.mem_cons_self _ _))
      (ih fun q hq => hp q (List.mem_cons_of_mem _ hq))

theorem lang_star_cls (p : Nat → Bool) (s : JSString) :
    Lang (star (cls p)) s ↔ ∀ c ∈ s, p c = true := by
  constructor
  · intro h
    refine lang_star_induction (cls p) (fun s => ∀ c ∈ s, p c = true) (by simp) ?_ h
    rintro a b ⟨c, hc, rfl⟩ hb d hd
    rcases List.mem_append.mp hd with hd | hd
    · rw [List.mem_singleton.mp hd]
      exact hc
    · exact hb d hd
  · intro h
    induction s with
    | nil => exact lang_star_nil _
    | cons c cs ih =>
      have h1 : Lang (cls p) [c] := ⟨c, h c (List.mem_cons_self _ _), rfl⟩
      exact lang_star_append (cls p) h1 (ih fun d hd => h d (List.mem_cons_of_mem _ hd))

theorem lang_plus_cls (p : Nat → Bool) (s : JSString) :
    Lang (plus (cls p)) s ↔ s ≠ [] ∧ ∀ c ∈ s, p c = true := by
  constructor
  · rintro ⟨a, b, rfl, ⟨c, hc, rfl⟩, hb⟩
    refine ⟨by simp, ?_⟩
    intro d hd
    rcases List.mem_append.mp hd with hd | hd
    · rw [List.mem_singleton.mp hd]
      exact hc
    · exact (lang_star_cls p b).mp hb d hd
  · rintro ⟨hne, h⟩
    cases s with
    | nil => exact absurd rfl hne
    | cons c cs =>
      exact ⟨[c], cs, rfl, ⟨c, h c (List.mem_cons_self _ _), rfl⟩,
        (lang_star_cls p cs).mpr fun d hd => h d (List.mem_cons_of_mem _ hd)⟩

theorem lang_rep_cls (p : Nat → Bool) (lo hi : Nat) (s : JSString) :
    Lang (rep (cls p) lo hi) s ↔ (lo ≤ s.length ∧ s.length ≤ hi) ∧ ∀ c ∈ s, p c = true := by
  induction hi generalizing lo s with
  | zero =>
    cases lo with
    | zero =>
      simp only [rep, Lang]
      constructor
      · rintro rfl
        simp
      · rintro ⟨⟨_, h⟩, _⟩
        exact List.length_eq_zero.mp (Nat.le_zero.mp h)
    | succ l =>
      simp only [rep, Lang, false_iff]
      rintro ⟨⟨h₁, h₂⟩, _⟩
      omega
  | succ h ih =>
    have step : ∀ l : Nat, Lang (seq (cls p) (rep (cls p) l h)) s ↔
        ∃ c cs, s = c :: cs ∧ p c = true ∧ ((l ≤ cs.length ∧ cs.length ≤ h) ∧
          ∀ d ∈ cs, p d = true) := by
      intro l
      constructor
      · rintro ⟨a, b, rfl, ⟨c, hc, rfl⟩, hb⟩
        exact ⟨c, b, rfl, hc, (ih l b).mp hb⟩
      · rintro ⟨c, cs, rfl, hc, hcs⟩
        exact ⟨[c], cs, rfl, ⟨c, hc, rfl⟩, (ih l cs).mpr hcs⟩
    cases lo with
    | zero =>
      simp only [rep, opt]
      show Lang (seq (cls p) (rep (cls p) 0 h)) s ∨ s = [] ↔ _
      rw [step]
      constructor
      · rintro (⟨c, cs, rfl, hc, ⟨_, h₂⟩, hcs⟩ | rfl)
        · refine ⟨⟨Nat.zero_le _, by simpa using h₂⟩, ?_⟩
          intro d hd
          rcases List.mem_cons.mp hd with rfl | hd
          · exact hc
          · exact hcs d hd
        · simp
      · rintro ⟨⟨_, h₂⟩, hs⟩
        cases s with
        | nil => exact Or.inr rfl
        | cons c cs =>
          refine Or.inl ⟨c, cs, rfl, hs c (List.mem_cons_self _ _),
            ⟨Nat.zero_le _, by simpa using h₂⟩, fun d hd => hs d (List.mem_cons_of_mem _ hd)⟩
    | succ l =>
      simp only [rep]
      rw [step]
      constructor
      · rintro ⟨c, cs, rfl, hc, ⟨h₁, h₂⟩, hcs⟩
        refine ⟨⟨by simpa using h₁, by simpa using h₂⟩, ?_⟩
        intro d hd
        rcases List.mem_cons.mp hd with rfl | hd
        · exact hc
        · exact hcs d hd
      · rintro ⟨⟨h₁, h₂⟩, hs⟩
        cases s with
        | nil => simp at h₁
        | cons c cs =>
          exact ⟨c, cs, rfl, hs c (List.mem_cons_self _ _),
            ⟨by simpa using h₁, by simpa using h₂⟩, fun d hd => hs d (List.mem_cons_of_mem _ hd)⟩

end Regex

/-- A lookahead `(?=.*[q])` succeeds when a character of class `q` follows a stretch without
line terminator. -/
theorem lookahead_dotStar_cls (q : Nat → Bool) (s : JSString) :
    Regex.lookahead (.seq (.star (.cls isDot)) (.cls q)) s = true ↔
      ∃ a c b, s = a ++ c :: b ∧ (∀ d ∈ a, isDot d = true) ∧ q c = true := by
  rw [Regex.lookahead_iff]
  constructor
  · rintro ⟨s₁, s₂, rfl, a, t, rfl, ha, c, hc, rfl⟩
    exact ⟨a, c, s₂, by simp, (Regex.lang_star_cls _ a).mp ha, hc⟩
  · rintro ⟨a, c, b, rfl, ha, hc⟩
    exact ⟨a ++ [c], b, by simp, a, [c], rfl, (Regex.lang_star_cls _ a).mpr ha, c, hc, rfl⟩

/-- What `passwordRegex.test` decides. -/
theorem passwordRegex_test_iff (s : JSString) :
    passwordRegex.test s = true ↔
      (6 ≤ s.length ∧ s.length ≤ 20) ∧ (∀ c ∈ s, isLineTerminator c = false) ∧
        (∃ c ∈ s, isDigit c = true) ∧ (∃ c ∈ s, isLower c = true) ∧
          (∃ c ∈ s, isUpper c = true) := by
  have hdot : (∀ c ∈ s, isDot c = true) ↔ ∀ c ∈ s, isLineTerminator c = false := by
    simp [isDot]
  have look : ∀ q : Nat → Bool, (∀ c ∈ s, isDot c = true) →
      ((∃ a c b, s = a ++ c :: b ∧ (∀ d ∈ a, isDot d = true) ∧ q c = true) ↔
        ∃ c ∈ s, q c = true) := by
    intro q hs
    constructor
    · rintro ⟨a, c, b, rfl, _, hc⟩
      exact ⟨c, by simp, hc⟩
    · rintro ⟨c, hmem, hc⟩
      obtain ⟨a, b, rfl⟩ := List.append_of_mem hmem
      exact ⟨a, c, b, rfl, fun d hd => hs d (List.mem_append_left _ hd), hc⟩
  simp only [Pattern.test, passwordRegex, List.all_cons, List.all_nil, Bool.and_true,
    Bool.and_eq_true, lookahead_dotStar_cls, Regex.accepts_iff, Regex.lang_rep_cls]
  constructor
  · rintro ⟨⟨h₁, h₂, h₃⟩, hlen, hs⟩
    exact ⟨hlen, hdot.mp hs, (look _ hs).mp h₁, (look _ hs).mp h₂, (look _ hs).mp h₃⟩
  · rintro ⟨hlen, hs, h₁, h₂, h₃⟩
    have hs' := hdot.mpr hs
    exact ⟨⟨(look _ hs').mpr h₁, (look _ hs').mpr h₂, (look _ hs').mpr h₃⟩, hlen, hs'⟩

/-! ## The shape of an accepted email -/

theorem takeWhile_append_cons {p : Nat → Bool} {a b : JSString} {x : Nat}
    (ha : ∀ c ∈ a, p c = true) (hx : p x = false) : (a ++ x :: b).takeWhile p = a := by
  induction a with
  | nil => simp [List.takeWhile, hx]
  | cons c cs ih =>
    rw [List.cons_append, List.takeWhile_cons, ha c (List.mem_cons_self _ _)]
    simp only [if_true]
    rw [ih fun d hd => ha d (List.mem_cons_of_mem _ hd)]

theorem dropWhile_append_cons {p : Nat → Bool} {a b : JSString} {x : Nat}
    (ha : ∀ c ∈ a, p c = true) (hx : p x = false) : (a ++ x :: b).dropWhile p = x :: b := by
  induction a with
  | nil => simp [List.dropWhile, hx]
  | cons c cs ih =>
    rw [List.cons_append, List.dropWhile_cons, ha c (List.mem_cons_self _ _)]
    simp only [if_true]
    exact ih fun d hd => ha d (List.mem_cons_of_mem _ hd)

theorem isWord_ne_at {c : Nat} (h : isWord c = true) : c ≠ 64 := by
  rintro rfl
  revert h
  decide

theorem isWord_ne_dot {c : Nat} (h : isWord c = true) : c ≠ 46 := by
  rintro rfl
  revert h
  decide

theorem isDotHyphen_ne_at {c : Nat} (h : isDotHyphen c = true) : c ≠ 64 := by
  rintro rfl
  revert h
  decide

theorem keepsRuns_nil : KeepsRuns [] := ⟨fun _ => rfl, by simp⟩

theorem keepsRuns_append {a b : JSString} (ha : KeepsRuns a) (hb : KeepsRuns b) :
    KeepsRuns (a ++ b) := by
  refine ⟨fun rest => ?_, ?_⟩
  · rw [List.append_assoc, ha.1, hb.1]
  · intro c hc
    rcases List.mem_append.mp hc with h | h
    · exact ha.2 c h
    · exact hb.2 c h

theorem keepsRuns_word {a : JSString} (ha : ∀ c ∈ a, isWord c = true) : KeepsRuns a := by
  induction a with
  | nil => exact keepsRuns_nil
  | cons c cs ih =>
    have hc := ha c (List.mem_cons_self _ _)
    have hcs := ih fun d hd => ha d (List.mem_cons_of_mem _ hd)
    refine ⟨fun rest => ?_, ?_⟩
    · rw [List.cons_append, wordRunsFrom, if_pos hc, hcs.1]
    · intro d hd
      rcases List.mem_cons.mp hd with rfl | hd
      · exact isWord_ne_at hc
      · exact hcs.2 d hd

/-- A non-empty run of word characters leaves the reader after a word character, wherever it
starts. -/
theorem wordRunsFrom_run {a : JSString} (hne : a ≠ []) (ha : ∀ c ∈ a, isWord c = true)
    (b : Bool) (rest : JSString) : wordRunsFrom b (a ++ rest) = wordRunsFrom true rest := by
  cases a with
  | nil => exact absurd rfl hne
  | cons c cs =>
    rw [List.cons_append, wordRunsFrom, if_pos (ha c (List.mem_cons_self _ _))]
    exact (keepsRuns_word fun d hd => ha d (List.mem_cons_of_mem _ hd)).1 rest

/-- A separator, dot or hyphen, between word characters keeps the runs going. -/
theorem keepsRuns_sep_run {c : Nat} {a : JSString} (hc : isDotHyphen c = true) (hne : a ≠ [])
    (ha : ∀ d ∈ a, isWord d = true) : KeepsRuns (c :: a) := by
  refine ⟨fun rest => ?_, ?_⟩
  · rw [List.cons_append, wordRunsFrom]
    by_cases hw : isWord c = true
    · rw [if_pos hw]
      exact (keepsRuns_word ha).1 rest
    · rw [if_neg hw, hc]
      simp only [Bool.and_self, if_true]
      exact wordRunsFrom_run hne ha false rest
  · intro d hd
    rcases List.mem_cons.mp hd with rfl | hd
    · exact isDotHyphen_ne_at hc
    · exact isWord_ne_at (ha d hd)

/-- What `\w+([\.-]?\w+)*` matches is a non-empty string of runs without `@`. -/
theorem lang_wordRunsRegex {x : JSString} (h : Regex.Lang wordRunsRegex x) :
    (∀ b rest, wordRunsFrom b (x ++ rest) = wordRunsFrom true rest) ∧ ∀ c ∈ x, c ≠ 64 := by
  obtain ⟨a, t, rfl, ha, ht⟩ := h
  obtain ⟨hne, haw⟩ := (Regex.lang_plus_cls isWord a).mp ha
  have hk : KeepsRuns t := by
    refine Regex.lang_star_induction _ KeepsRuns keepsRuns_nil ?_ ht
    rintro g b ⟨o, w, rfl, ho, hw⟩ hb
    obtain ⟨hwne, hww⟩ := (Regex.lang_plus_cls isWord w).mp hw
    refine keepsRuns_append ?_ hb
    rcases ho with ⟨c, hc, rfl⟩ | rfl
    · exact keepsRuns_sep_run hc hwne hww
    · exact keepsRuns_word hww
  refine ⟨fun b rest => ?_, ?_⟩
  · rw [List.append_assoc, wordRunsFrom_run hne haw, hk.1]
  · intro c hc
    rcases List.mem_append.mp hc with h | h
    · exact isWord_ne_at (haw c h)
    · exact hk.2 c h

/-- What `\.\w{2,3}` matches: a dot and 2 to 3 word characters. -/
theorem lang_suffixGroup {g : JSString}
    (h : Regex.Lang (.seq (.chr 46) (.rep (.cls isWord) 2 3)) g) :
    ∃ t, g = 46 :: t ∧ (2 ≤ t.length ∧ t.length ≤ 3) ∧ ∀ c ∈ t, isWord c = true := by
  obtain ⟨a, t, rfl, ⟨c, hc, rfl⟩, ht⟩ := h
  have hc' : c = 46 := by simpa using hc
  subst hc'
  exact ⟨t, rfl, (Regex.lang_rep_cls isWord 2 3 t).mp ht⟩

/-- What `(\.\w{2,3})+` matches ends in a dot and 2 to 3 word characters; what comes before
keeps the runs going. -/
theorem lang_suffixRegex {t : JSString} (h : Regex.Lang suffixRegex t) :
    ∃ t₀ tl, t = t₀ ++ 46 :: tl ∧ KeepsRuns t₀ ∧ (2 ≤ tl.length ∧ tl.length ≤ 3) ∧
      ∀ c ∈ tl, isWord c = true := by
  have group : ∀ g, Regex.Lang (.seq (.chr 46) (.rep (.cls isWord) 2 3)) g → ∀ b,
      (b = [] ∨ ∃ t₀ tl, b = t₀ ++ 46 :: tl ∧ KeepsRuns t₀ ∧ (2 ≤ tl.length ∧ tl.length ≤ 3) ∧
        ∀ c ∈ tl, isWord c = true) →
      ∃ t₀ tl, g ++ b = t₀ ++ 46 :: tl ∧ KeepsRuns t₀ ∧ (2 ≤ tl.length ∧ tl.length ≤ 3) ∧
        ∀ c ∈ tl, isWord c = true := by
    intro g hg b hb
    obtain ⟨u, rfl, hlen, hu⟩ := lang_suffixGroup hg
    rcases hb with rfl | ⟨t₀, tl, rfl, hk, hl, hw⟩
    · exact ⟨[], u, by simp, keepsRuns_nil, hlen, hu⟩
    · refine ⟨46 :: u ++ t₀, tl, by simp, keepsRuns_append ?_ hk, hl, hw⟩
      refine keepsRuns_sep_run (by decide) ?_ hu
      intro hnil
      rw [hnil] at hlen
      simp at hlen
  obtain ⟨g, b, rfl, hg, hb⟩ := h
  refine group g hg b ?_
  refine Regex.lang_star_induction _
    (fun b => b = [] ∨ ∃ t₀ tl, b = t₀ ++ 46 :: tl ∧ KeepsRuns t₀ ∧
      (2 ≤ tl.length ∧ tl.length ≤ 3) ∧ ∀ c ∈ tl, isWord c = true) (Or.inl rfl) ?_ hb
  intro a c ha hc
  exact Or.inr (group a ha c hc)

/-- What `emailRegex.test` accepts, taken apart. -/
theorem emailRegex_parts {s : JSString} (h : emailRegex.test s = true) :
    ∃ l d tl, s = l ++ 64 :: (d ++ 46 :: tl) ∧ wordRuns l = true ∧ wordRuns d = true ∧
      (∀ c ∈ l, c ≠ 64) ∧ (∀ c ∈ d, c ≠ 64) ∧ (2 ≤ tl.length ∧ tl.length ≤ 3) ∧
        ∀ c ∈ tl, isWord c = true := by
  simp only [Pattern.test, emailRegex, List.all_nil, Bool.true_and, Regex.accepts_iff] at h
  obtain ⟨l, r, rfl, hl, a, r', rfl, ⟨c, hc, rfl⟩, d, t, rfl, hd, ht⟩ := h
  have hc' : c = 64 := by simpa using hc
  subst hc'
  obtain ⟨t₀, tl, rfl, hk, hlen, hw⟩ := lang_suffixRegex ht
  have hL := lang_wordRunsRegex hl
  have hD := lang_wordRunsRegex hd
  refine ⟨l, d ++ t₀, tl, by simp, ?_, ?_, hL.2, ?_, hlen, hw⟩
  · have := hL.1 false []
    simpa [wordRuns, wordRunsFrom] using this
  · have h1 := hD.1 false (t₀ ++ [])
    have h2 := hk.1 []
    simp only [List.append_nil] at h1 h2
    rw [wordRuns, h1, h2]
    rfl
  · intro c hc
    rcases List.mem_append.mp hc with h | h
    · exact hD.2 c h
    · exact hk.2 c h

/-- The parts of `emailRegex_parts` make up the shape of the specification, with word
characters in the top-level segment. -/
theorem emailShape_of_parts {l d tl : JSString} (hl : wordRuns l = true) (hd : wordRuns d = true)
    (hl64 : ∀ c ∈ l, c ≠ 64) (hd64 : ∀ c ∈ d, c ≠ 64) (hlen : 2 ≤ tl.length ∧ tl.length ≤ 3)
    (hw : ∀ c ∈ tl, isWord c = true) :
    emailShape isWord (l ++ 64 :: (d ++ 46 :: tl)) = true := by
  have hloc : localPart (l ++ 64 :: (d ++ 46 :: tl)) = l :=
    takeWhile_append_cons (fun c hc => by simpa using hl64 c hc) (by decide)
  have haft : afterAt (l ++ 64 :: (d ++ 46 :: tl)) = d ++ 46 :: tl := by
    rw [afterAt, dropWhile_append_cons (fun c hc => by simpa using hl64 c hc) (by decide)]
    rfl
  have hrev : (d ++ 46 :: tl).reverse = tl.reverse ++ 46 :: d.reverse := by simp
  have htlr : ∀ c ∈ tl.reverse, (fun c => c != 46) c = true := by
    intro c hc
    simpa using isWord_ne_dot (hw c (List.mem_reverse.mp hc))
  have htop : topLevel (d ++ 46 :: tl) = tl := by
    rw [topLevel, hrev, takeWhile_append_cons htlr (by decide), List.reverse_reverse]
  have hdom : domainPart (d ++ 46 :: tl) = d := by
    rw [domainPart, hrev, dropWhile_append_cons htlr (by decide)]
    simp
  have hcount : (l ++ 64 :: (d ++ 46 :: tl)).count 64 = 1 := by
    have h1 : l.count 64 = 0 := List.count_eq_zero.mpr fun h => hl64 64 h rfl
    have h2 : d.count 64 = 0 := List.count_eq_zero.mpr fun h => hd64 64 h rfl
    have h3 : tl.count 64 = 0 := List.count_eq_zero.mpr fun h => isWord_ne_at (hw 64 h) rfl
    simp [List.count_append, List.count_cons, h1, h2, h3]
  simp only [emailShape, hloc, haft, htop, hdom, hcount, hl, hd, hlen.1, hlen.2, decide_True,
    Bool.and_true, Bool.true_and, beq_self_eq_true]
  rw [Bool.and_eq_true]
  exact ⟨by simp, List.all_eq_true.mpr hw⟩

/-! ## Running the handlers -/

theorem M.bind_run {α β : Type} (m : M α) (f : α → M β) (e : Env) (w : World) :
    (m >>= f) e w =
      match m e w with
      | (.ok a, w') => f a e w'
      | (.error err, w') => (.error err, w') := rfl

theorem M.pure_run {α : Type} (a : α) (e : Env) (w : World) :
    (pure a : M α) e w = (.ok a, w) := rfl

theorem generateUserName_run (email : JSString) (e : Env) (w : World) :
    generateUserName email e w =
      match e.fault .userExists with
      | some err => (.error err, w.record (.exists (emailLocal email)))
      | none =>
        if usernameTaken w (emailLocal email) then
          match e.fault .nanoid with
          | some err => (.error err, (w.record (.exists (emailLocal email))).record .nanoid)
          | none => (.ok (emailLocal email ++ substring e.nanoid 0 5),
              (w.record (.exists (emailLocal email))).record .nanoid)
        else (.ok (emailLocal email), w.record (.exists (emailLocal email))) := by
  simp only [generateUserName, M.bind_run, User.exists, M.call, nanoid, M.pure_run,
    World.record, emailLocal, usernameTaken]
  cases e.fault .userExists with
  | some err => rfl
  | none =>
    simp only
    split
    · simp only [M.bind_run, M.call, M.pure_run]
      cases e.fault .nanoid <;> rfl
    · rfl

/-- When its calls answer, `generateUserName` returns the allocated name and leaves the
collection as it was. -/
theorem generateUserName_ok (email : JSString) (e : Env) (w : World)
    (h1 : e.fault .userExists = none)
    (h2 : usernameTaken w (emailLocal email) = true → e.fault .nanoid = none) :
    generateUserName email e w =
      (.ok (allocated e w email), ⟨w.users, w.trace ++ allocationTrace w email⟩) := by
  rw [generateUserName_run, h1]
  simp only [allocated, allocationTrace, World.record]
  by_cases ht : usernameTaken w (emailLocal email) = true
  · simp [ht, h2 ht]
  · simp [ht]

/-- When one of its calls faults, `generateUserName` throws that fault and leaves the
collection as it was. -/
theorem generateUserName_fault (email : JSString) (e : Env) (w : World)
    (h : ¬ (e.fault .userExists = none ∧
      (usernameTaken w (emailLocal email) = true → e.fault .nanoid = none))) :
    ∃ c err w', e.fault c = some err ∧ generateUserName email e w = (.error err, w') ∧
      w'.users = w.users := by
  rw [generateUserName_run]
  cases h1 : e.fault .userExists with
  | some err => exact ⟨_, err, _, h1, rfl, rfl⟩
  | none =>
    simp only [h1, true_and, Classical.not_imp] at h
    obtain ⟨ht, hn⟩ := h
    cases h2 : e.fault .nanoid with
    | none => exact absurd h2 hn
    | some err =>
      refine ⟨_, err, (w.record (.exists (emailLocal email))).record .nanoid, h2, ?_, rfl⟩
      simp only [ht, if_true]

/-- The `catch` clause of signup, run. -/
theorem signup_catch_run (err : JSError) (e : Env) (w : World) :
    (if err.code == some 11000 then
        (pure ⟨500, .error "Email already exists."⟩ : M Response)
      else do
        consoleError "Signup error:" err.message
        pure ⟨500, .error "Internal Server Error"⟩) e w =
    (.ok (signupCaught err),
      if err.code == some 11000 then w else w.record (.consoleError "Signup error:" err.message)) := by
  unfold signupCaught
  split <;> rfl

theorem ite_world_users (c : Prop) [Decidable c] (w : World) (ev : Event) :
    (if c then w else w.record ev).users = w.users := by
  split <;> rfl

/-- The ways a signup that passed the checks ends: an external call before the signer faulted
and the `catch` clause answered; the signer faulted, after the user was saved, and the `catch`
clause answered; a unique index refused the document; or the user was saved and the data
sent. -/
theorem signup_valid (req : SignupBody) (e : Env) (w : World) (hv : validSignup req = true) :
    (∃ c err, e.fault c = some err ∧ (signup req e w).1 = .ok (signupCaught err) ∧
        (signup req e w).2.users = w.users) ∨
      (∃ err, e.fault .jwtSign = some err ∧ (signup req e w).1 = .ok (signupCaught err) ∧
        (signup req e w).2.users = w.users ++ [newUser e w req]) ∨
      (e.fault .bcryptHash = none ∧ e.fault .userExists = none ∧ e.fault .userSave = none ∧
        (usernameTaken w (emailLocal req.email) = true → e.fault .nanoid = none) ∧
        duplicateKey e w (newUser e w req) = true ∧
        signup req e w =
          (.ok ⟨500, .error "Email already exists."⟩, ⟨w.users, savedTrace e w req⟩)) ∨
      (e.fault .bcryptHash = none ∧ e.fault .userExists = none ∧ e.fault .userSave = none ∧
        (usernameTaken w (emailLocal req.email) = true → e.fault .nanoid = none) ∧
        e.fault .jwtSign = none ∧
        duplicateKey e w (newUser e w req) = false ∧
        signup req e w =
          (.ok ⟨200, .data (userData e (newUser e w req))⟩,
            ⟨w.users ++ [newUser e w req],
              savedTrace e w req ++
                [.sign [("id", (newUser e w req)._id)] e.SECRET_ACCESS_KEY none]⟩)) := by
  simp only [validSignup, Bool.and_eq_true, Bool.not_eq_true', decide_eq_false_iff_not] at hv
  obtain ⟨⟨h1, h2⟩, h3⟩ := hv
  simp only [signup, if_neg h1, h2, h3, Bool.not_true, Bool.false_eq_true, if_false]
  simp only [M.tryCatch, M.bind_run, bcrypt.hash, M.call, signup_catch_run]
  cases hf1 : e.fault .bcryptHash with
  | some err => exact Or.inl ⟨_, err, hf1, rfl, ite_world_users _ _ _⟩
  | none =>
    simp only
    by_cases hg : e.fault .userExists = none ∧
        (usernameTaken w (emailLocal req.email) = true → e.fault .nanoid = none)
    · have hrun := generateUserName_ok req.email e ⟨w.users, w.trace ++ [.hash req.password 6]⟩
        hg.1 hg.2
      rw [hrun]
      simp only [User.new, User.save, M.call, M.pure_run]
      cases hf4 : e.fault .userSave with
      | some err => exact Or.inl ⟨_, err, hf4, rfl, ite_world_users _ _ _⟩
      | none =>
        simp only
        by_cases hd : duplicateKey e w (newUser e w req) = true
        · refine Or.inr (Or.inr (Or.inl ⟨trivial, hg.1, trivial, hg.2, hd, ?_⟩))
          have hd' := hd
          simp only [duplicateKey, newUser, emailTaken, usernameTaken, allocated] at hd'
          simp only [allocated, usernameTaken, hd', if_true]
          rfl
        · have hd' := hd
          simp only [duplicateKey, newUser, emailTaken, usernameTaken, allocated] at hd'
          simp only [allocated, usernameTaken, hd', if_false, formatDatatoSend, M.bind_run, M.env,
            jwt.sign, M.call, M.pure_run]
          cases hf5 : e.fault .jwtSign with
          | some err => exact Or.inr (Or.inl ⟨err, rfl, rfl, ite_world_users _ _ _⟩)
          | none =>
            refine Or.inr (Or.inr (Or.inr ⟨trivial, hg.1, trivial, hg.2, rfl, ?_, ?_⟩))
            · simpa using hd
            · rfl
    · obtain ⟨c, err, w', hc, hrun, hw'⟩ :=
        generateUserName_fault req.email e ⟨w.users, w.trace ++ [.hash req.password 6]⟩ hg
      rw [hrun]
      exact Or.inl ⟨c, err, hc, rfl, by simp only [ite_world_users]; exact hw'⟩

theorem signupCaught_status (err : JSError) : (signupCaught err).status = 500 := by
  unfold signupCaught
  split <;> rfl

theorem signupCaught_of_other {err : JSError} (h : err.code ≠ some 11000) :
    signupCaught err = ⟨500, .error "Internal Server Error"⟩ := by
  unfold signupCaught
  rw [if_neg]
  simpa using h

/-- A signup that fails a check answers 403 and touches nothing. -/
theorem signup_invalid (req : SignupBody) (e : Env) (w : World) (hv : validSignup req = false) :
    signup req e w =
      (.ok ⟨403, .error
        (if req.fullname.length < 3 then fullnameMessage
          else if req.email.length == 0 || !emailRegex.test req.email then emailMessage
          else passwordMessage)⟩, w) := by
  unfold signup
  by_cases h1 : req.fullname.length < 3
  · simp only [if_pos h1]
    rfl
  · by_cases h2 : (req.email.length == 0 || !emailRegex.test req.email) = true
    · simp only [if_neg h1, h2, if_true]
      rfl
    · by_cases h3 : (!passwordRegex.test req.password) = true
      · simp only [if_neg h1, h2, h3, if_true, Bool.false_eq_true, if_false]
        rfl
      · exfalso
        simp only [validSignup, h1, decide_False, Bool.not_false, Bool.true_and] at hv
        simp only [Bool.not_eq_true] at h2 h3
        rw [h2] at hv
        simp only [Bool.not_false, Bool.true_and] at hv
        rw [hv] at h3
        exact absurd h3 (by decide)

/-- A signup answers 200 only in one way: the checks passed, every call answered, no index
refused, and the saved user and its data are the ones computed from the request. -/
theorem signup_200 (req : SignupBody) (e : Env) (w : World) (resp : Response)
    (h : (signup req e w).1 = .ok resp) (hs : resp.status = 200) :
    validSignup req = true ∧ duplicateKey e w (newUser e w req) = false ∧
      signup req e w =
        (.ok ⟨200, .data (userData e (newUser e w req))⟩,
          ⟨w.users ++ [newUser e w req],
            savedTrace e w req ++
              [.sign [("id", (newUser e w req)._id)] e.SECRET_ACCESS_KEY none]⟩) := by
  by_cases hv : validSignup req = true
  · rcases signup_valid req e w hv with ⟨c, err, _, h', _⟩ | ⟨err, _, h', _⟩ |
      ⟨_, _, _, _, _, h'⟩ | ⟨_, _, _, _, _, hd, h'⟩
    · rw [h'] at h
      have := Except.ok.inj h
      rw [← this, signupCaught_status] at hs
      exact absurd hs (by decide)
    · rw [h'] at h
      have := Except.ok.inj h
      rw [← this, signupCaught_status] at hs
      exact absurd hs (by decide)
    · rw [h'] at h
      have := Except.ok.inj h
      rw [← this] at hs
      exact absurd hs (by decide)
    · exact ⟨hv, hd, h'⟩
  · have hv' : validSignup req = false := by simpa using hv
    rw [signup_invalid req e w hv'] at h
    have := Except.ok.inj h
    rw [← this] at hs
    exact absurd hs (show (403 : Nat) ≠ 200 by decide)

/-- The handler of signin, run. -/
theorem signin_run (req : SigninBody) (e : Env) (w : World) :
    signin req e w =
      match e.fault .userFindOne with
      | some err =>
        (.ok ⟨500, .error "Internal Server Error"⟩,
          (w.record (.findOne req.email)).record (.consoleError "Signin error:" err.message))
      | none =>
        match w.users.find? fun u => u.personal_info.email == req.email with
        | none => (.ok ⟨403, .error "Email not found."⟩, w.record (.findOne req.email))
        | some u =>
          match e.fault .bcryptCompare with
          | some err =>
            (.ok ⟨500, .error "Internal Server Error"⟩,
              ((w.record (.findOne req.email)).record
                (.compare req.password u.personal_info.password)).record
                  (.consoleError "Signin error:" err.message))
          | none =>
            if e.bcryptCompare req.password u.personal_info.password then
              match e.fault .jwtSign with
              | some err =>
                (.ok ⟨500, .error "Internal Server Error"⟩,
                  (((w.record (.findOne req.email)).record
                    (.compare req.password u.personal_info.password)).record
                      (.sign [("id", u._id)] e.SECRET_ACCESS_KEY none)).record
                        (.consoleError "Signin error:" err.message))
              | none =>
                (.ok ⟨200, .data (userData e u)⟩,
                  ((w.record (.findOne req.email)).record
                    (.compare req.password u.personal_info.password)).record
                      (.sign [("id", u._id)] e.SECRET_ACCESS_KEY none))
            else
              (.ok ⟨403, .error "Incorrect password."⟩,
                (w.record (.findOne req.email)).record
                  (.compare req.password u.personal_info.password)) := by
  simp only [signin, M.tryCatch, M.bind_run, User.findOne, M.call, M.pure_run, consoleError,
    World.record]
  cases e.fault .userFindOne with
  | some err => rfl
  | none =>
    simp only
    cases (w.users.find? fun u => u.personal_info.email == req.email) with
    | none => rfl
    | some u =>
      simp only [M.bind_run, bcrypt.compare, M.call]
      cases e.fault .bcryptCompare with
      | some err => rfl
      | none =>
        simp only
        cases e.bcryptCompare req.password u.personal_info.password with
        | false => rfl
        | true =>
          simp only [Bool.not_true, Bool.false_eq_true, if_false, if_true, M.bind_run,
            formatDatatoSend, M.env, jwt.sign, M.call, M.pure_run]
          cases e.fault .jwtSign <;> rfl

theorem substring_zero (s : JSString) (n : Nat) : substring s 0 n = s.take n := by
  simp [substring, List.take_eq_take]

theorem emailLocal_eq (email : JSString) : emailLocal email = email.takeWhile fun c => c != 64 := by
  unfold emailLocal
  induction email with
  | nil => rfl
  | cons c cs ih =>
    by_cases hc : c = 64
    · subst hc
      simp [split, List.takeWhile]
    · have hne : (c == 64) = false := by simpa using hc
      rw [split, hne]
      simp only [Bool.false_eq_true, if_false]
      rw [List.takeWhile_cons]
      have hne' : (c != 64) = true := by simpa using hc
      rw [hne', if_pos rfl, ← ih]
      cases split 64 cs <;> rfl

theorem validSignup_iff (req : SignupBody) :
    validSignup req = true ↔
      3 ≤ req.fullname.length ∧ (req.email.length == 0 || !emailRegex.test req.email) = false ∧
        passwordRegex.test req.password = true := by
  simp only [validSignup, Bool.and_eq_true, Bool.not_eq_true', decide_eq_false_iff_not,
    Nat.not_lt]
  tauto

theorem emailTaken_after_signup (e : Env) (w : World) (req : SignupBody) (tr : List Event) :
    emailTaken ⟨w.users ++ [newUser e w req], tr⟩ req.email = true := by
  simp [emailTaken, newUser]

/-- After a signup that found the email free, the lookup by that email finds the new user. -/
theorem find_after_signup (e : Env) (w : World) (req : SignupBody)
    (hd : duplicateKey e w (newUser e w req) = false) :
    (w.users ++ [newUser e w req]).find? (fun u => u.personal_info.email == req.email) =
      some (newUser e w req) := by
  have hfree : emailTaken w req.email = false := by
    simp only [duplicateKey, Bool.or_eq_false_iff] at hd
    exact hd.1
  have hnone : w.users.find? (fun u => u.personal_info.email == req.email) = none := by
    rw [List.find?_eq_none]
    intro u hu hcon
    have : emailTaken w req.email = true := List.any_eq_true.mpr ⟨u, hu, hcon⟩
    rw [hfree] at this
    exact absurd this (by decide)
  rw [List.find?_append, hnone]
  simp [newUser]

/-! ## The claims -/

/-- C1: signup checks the full name, then the email, then the password, and stops at the first
failure. A full name of fewer than 3 characters (UTF-16 code units) is answered with status
403 and the full-name message whatever the email and the password are; a full name of at
least 3 characters with an email that is empty or does not match `emailRegex` is answered
with status 403 and the email message whatever the password is. In both cases no external
call is made and the world is left as it was; the three messages are distinct. -/
theorem signup_validation_order (fullname email password : JSString) (e : Env) (w : World) :
    (fullname.length < 3 →
      signup ⟨fullname, email, password⟩ e w = (.ok ⟨403, .error fullnameMessage⟩, w)) ∧
    (3 ≤ fullname.length → (email = [] ∨ emailRegex.test email = false) →
      signup ⟨fullname, email, password⟩ e w = (.ok ⟨403, .error emailMessage⟩, w)) ∧
    fullnameMessage ≠ emailMessage ∧ emailMessage ≠ passwordMessage ∧
      fullnameMessage ≠ passwordMessage := by
  refine ⟨?_, ?_, by decide, by decide, by decide⟩
  · intro h
    have hv : validSignup ⟨fullname, email, password⟩ = false := by
      simp [validSignup, h]
    rw [signup_invalid _ e w hv]
    simp only [if_pos h]
  · intro h hem
    have h1 : ¬ fullname.length < 3 := Nat.not_lt.mpr h
    have h2 : (email.length == 0 || !emailRegex.test email) = true := by
      rcases hem with rfl | hem
      · rfl
      · simp [hem]
    have hv : validSignup ⟨fullname, email, password⟩ = false := by
      simp only [validSignup, h2, Bool.not_true, Bool.and_false, Bool.false_and]
    rw [signup_invalid _ e w hv]
    simp only [if_neg h1, h2, if_true]

/-- C1, at concrete requests: a two-character full name with a valid email and password, and
a valid full name with an email without domain and an invalid password. -/
theorem signup_validation_order_witness :
    signup ⟨utf16 "Al", utf16 "alice@example.com", utf16 "Abcde1"⟩ demoEnv emptyWorld =
        (.ok ⟨403, .error fullnameMessage⟩, emptyWorld) ∧
      signup ⟨utf16 "Alice Smith", utf16 "alice@", utf16 "abc"⟩ demoEnv emptyWorld =
        (.ok ⟨403, .error emailMessage⟩, emptyWorld) :=
  ⟨(signup_validation_order (utf16 "Al") (utf16 "alice@example.com") (utf16 "Abcde1")
      demoEnv emptyWorld).1 (by decide),
    (signup_validation_order (utf16 "Alice Smith") (utf16 "alice@") (utf16 "abc")
      demoEnv emptyWorld).2.1 (by decide) (Or.inr (by decide))⟩

theorem passwordRule_iff (s : JSString) :
    passwordRule s = true ↔
      (6 ≤ s.length ∧ s.length ≤ 20) ∧ (∃ c ∈ s, isDigit c = true) ∧
        (∃ c ∈ s, isLower c = true) ∧ (∃ c ∈ s, isUpper c = true) := by
  simp only [passwordRule, Bool.and_eq_true, decide_eq_true_eq, List.any_eq_true]
  tauto

/-- C2, as stated, fails: the password `Abcde1` followed by a line feed has 7 characters, a
digit, a lowercase and an uppercase letter, and signup rejects it with the password message,
the full name and the email being valid. -/
theorem signup_password_rule_counterexample :
    3 ≤ (utf16 "Alice Smith").length ∧
      ((utf16 "alice@example.com").length == 0 ||
        !emailRegex.test (utf16 "alice@example.com")) = false ∧
      passwordRule (utf16 "Abcde1\n") = true ∧
      signup ⟨utf16 "Alice Smith", utf16 "alice@example.com", utf16 "Abcde1\n"⟩ demoEnv
        emptyWorld = (.ok ⟨403, .error passwordMessage⟩, emptyWorld) :=
  ⟨by decide, by decide, by decide, rfl⟩

/-- C2, amended: for a full name of at least 3 characters and an email that passes the email
check, signup rejects with status 403 and the password message if and only if it is not the
case that the password has length 6 to 20, contains a digit, a lowercase and an uppercase
letter, and contains no line terminator (LF, CR, U+2028, U+2029). -/
theorem signup_password_rule (fullname email password : JSString) (e : Env) (w : World)
    (hname : 3 ≤ fullname.length)
    (hemail : (email.length == 0 || !emailRegex.test email) = false) :
    (signup ⟨fullname, email, password⟩ e w).1 = .ok ⟨403, .error passwordMessage⟩ ↔
      ¬ (passwordRule password = true ∧ ∀ c ∈ password, isLineTerminator c = false) := by
  have h1 : ¬ fullname.length < 3 := Nat.not_lt.mpr hname
  have hrule : passwordRegex.test password = true ↔
      (passwordRule password = true ∧ ∀ c ∈ password, isLineTerminator c = false) := by
    rw [passwordRegex_test_iff, passwordRule_iff]
    tauto
  rw [← hrule]
  by_cases ht : passwordRegex.test password = true
  · have hv : validSignup ⟨fullname, email, password⟩ = true := by
      simp only [validSignup, h1, hemail, ht, decide_False, Bool.not_false, Bool.and_self]
    constructor
    · intro h
      exfalso
      rcases signup_valid _ e w hv with ⟨c, err, _, h', _⟩ | ⟨err, _, h', _⟩ |
        ⟨_, _, _, _, _, h'⟩ | ⟨_, _, _, _, _, _, h'⟩
      · rw [h'] at h
        have := congrArg Response.status (Except.ok.inj h)
        rw [signupCaught_status] at this
        exact absurd this (by decide)
      · rw [h'] at h
        have := congrArg Response.status (Except.ok.inj h)
        rw [signupCaught_status] at this
        exact absurd this (by decide)
      · rw [h'] at h
        exact absurd (congrArg Response.status (Except.ok.inj h))
          (show (500 : Nat) ≠ 403 by decide)
      · rw [h'] at h
        exact absurd (congrArg Response.status (Except.ok.inj h))
          (show (200 : Nat) ≠ 403 by decide)
    · intro h
      exact absurd ht h
  · have ht' : passwordRegex.test password = false := by simpa using ht
    have hv : validSignup ⟨fullname, email, password⟩ = false := by
      simp only [validSignup, ht', Bool.and_false]
    constructor
    · intro _
      exact ht
    · intro _
      rw [signup_invalid _ e w hv]
      simp only [if_neg h1, hemail, Bool.false_eq_true, if_false]

/-- C2, amended, at the request of the end-to-end example: its password `Abcde1` satisfies the
rule, so the answer is not the password rejection. -/
theorem signup_password_rule_witness :
    3 ≤ (utf16 "Alice Smith").length ∧
      ((utf16 "alice@example.com").length == 0 ||
        !emailRegex.test (utf16 "alice@example.com")) = false ∧
      ((signup ⟨utf16 "Alice Smith", utf16 "alice@example.com", utf16 "Abcde1"⟩ demoEnv
        emptyWorld).1 = .ok ⟨403, .error passwordMessage⟩ ↔
        ¬ (passwordRule (utf16 "Abcde1") = true ∧
          ∀ c ∈ utf16 "Abcde1", isLineTerminator c = false)) :=
  ⟨by decide, by decide,
    signup_password_rule (utf16 "Alice Smith") (utf16 "alice@example.com") (utf16 "Abcde1")
      demoEnv emptyWorld (by decide) (by decide)⟩

/-- C3, as stated, fails: `a@b.12` passes the email check of signup, and its top-level
segment `12` holds no letter. -/
theorem email_shape_counterexample :
    ((utf16 "a@b.12").length == 0 || !emailRegex.test (utf16 "a@b.12")) = false ∧
      topLevel (afterAt (utf16 "a@b.12")) = utf16 "12" ∧
      emailShape isLetter (utf16 "a@b.12") = false :=
  ⟨by decide, by decide, by decide⟩

/-- C3, amended: every email that passes the email check of signup has the shape
`local-part@domain.tld` with exactly one `@`, where the local part and the domain are
non-empty runs of word characters with single dots or hyphens only between runs, and where
the top-level segment (the characters after the last dot) consists of 2 to 3 word characters
(letters, digits or underscores). -/
theorem email_shape (email : JSString)
    (h : (email.length == 0 || !emailRegex.test email) = false) :
    emailShape isWord email = true := by
  have ht : emailRegex.test email = true := by
    simp only [Bool.or_eq_false_iff, Bool.not_eq_false'] at h
    exact h.2
  obtain ⟨l, d, tl, rfl, hl, hd, hl64, hd64, hlen, hw⟩ := emailRegex_parts ht
  exact emailShape_of_parts hl hd hl64 hd64 hlen hw

/-- C3, amended, at the email of the end-to-end example. -/
theorem email_shape_witness :
    ((utf16 "alice@example.com").length == 0 ||
        !emailRegex.test (utf16 "alice@example.com")) = false ∧
      emailShape isWord (utf16 "alice@example.com") = true :=
  ⟨by decide, email_shape (utf16 "alice@example.com") (by decide)⟩

/-- C4: if a signup answers 200, a second signup with the same email, and any full name and
password that pass the checks, run on the resulting world in an environment whose calls
answer, is answered with status 500 and the error `Email already exists.`, and the
collection stays as the first signup left it. -/
theorem signup_twice (req : SignupBody) (e₁ : Env) (w : World) (resp : Response)
    (h : (signup req e₁ w).1 = .ok resp) (hs : resp.status = 200)
    (fullname password : JSString) (e₂ : Env) (hf : e₂.faultless)
    (hname : 3 ≤ fullname.length) (hpw : passwordRegex.test password = true) :
    (signup ⟨fullname, req.email, password⟩ e₂ (signup req e₁ w).2).1 =
        .ok ⟨500, .error "Email already exists."⟩ ∧
      (signup ⟨fullname, req.email, password⟩ e₂ (signup req e₁ w).2).2.users =
        (signup req e₁ w).2.users := by
  obtain ⟨hv, -, hrun⟩ := signup_200 req e₁ w resp h hs
  have hv₂ : validSignup ⟨fullname, req.email, password⟩ = true :=
    (validSignup_iff _).mpr ⟨hname, ((validSignup_iff req).mp hv).2.1, hpw⟩
  have hw : (signup req e₁ w).2 = ⟨w.users ++ [newUser e₁ w req], savedTrace e₁ w req ++
      [.sign [("id", (newUser e₁ w req)._id)] e₁.SECRET_ACCESS_KEY none]⟩ := by
    rw [hrun]
  rw [hw]
  rcases signup_valid ⟨fullname, req.email, password⟩ e₂ _ hv₂ with
    ⟨c, err, hc, _, _⟩ | ⟨err, hc, _, _⟩ | ⟨_, _, _, _, _, h'⟩ | ⟨_, _, _, _, _, hd, _⟩
  · rw [hf c] at hc
    exact absurd hc (by simp)
  · rw [hf _] at hc
    exact absurd hc (by simp)
  · rw [h']
    exact ⟨rfl, rfl⟩
  · exfalso
    simp only [duplicateKey, Bool.or_eq_false_iff] at hd
    have hd1 : emailTaken ⟨w.users ++ [newUser e₁ w req], savedTrace e₁ w req ++
        [.sign [("id", (newUser e₁ w req)._id)] e₁.SECRET_ACCESS_KEY none]⟩ req.email = false :=
      hd.1
    rw [emailTaken_after_signup] at hd1
    exact absurd hd1 (by decide)

/-- C4, at the request of the end-to-end example, repeated with another name and password. -/
theorem signup_twice_witness :
    (signup aliceRequest demoEnv emptyWorld).1 =
        .ok ⟨200, .data (userData demoEnv (newUser demoEnv emptyWorld aliceRequest))⟩ ∧
      (signup ⟨utf16 "Alice Jones", aliceRequest.email, utf16 "Zyxwv9"⟩ demoEnv
        (signup aliceRequest demoEnv emptyWorld).2).1 =
        .ok ⟨500, .error "Email already exists."⟩ ∧
      (signup ⟨utf16 "Alice Jones", aliceRequest.email, utf16 "Zyxwv9"⟩ demoEnv
        (signup aliceRequest demoEnv emptyWorld).2).2.users =
        (signup aliceRequest demoEnv emptyWorld).2.users :=
  ⟨rfl, signup_twice aliceRequest demoEnv emptyWorld _ rfl rfl (utf16 "Alice Jones")
    (utf16 "Zyxwv9") demoEnv (fun _ => rfl) (by decide) (by decide)⟩

/-- C5: if a signup answers 200, then on the resulting world, in an environment whose calls
answer and whose password comparison accepts the hash signup stored for exactly the password
it was made from, a signin with the same email and password answers 200 with the username,
full name and profile image of the signup response and a token signed for the identifier of
the same stored user, and a signin with the same email and any other password answers 403 with
the error `Incorrect password.`. -/
theorem signup_then_signin (req : SignupBody) (e₁ : Env) (w : World) (resp : Response)
    (h : (signup req e₁ w).1 = .ok resp) (hs : resp.status = 200)
    (e₂ : Env) (hf : e₂.faultless)
    (hcmp : ∀ q, e₂.bcryptCompare q (e₁.bcryptHash req.password 6) = decide (q = req.password)) :
    ∃ u d, u ∈ (signup req e₁ w).2.users ∧ resp = ⟨200, .data d⟩ ∧
      d.access_token = e₁.jwtSign [("id", u._id)] e₁.SECRET_ACCESS_KEY none ∧
      (signin ⟨req.email, req.password⟩ e₂ (signup req e₁ w).2).1 =
        .ok ⟨200, .data ⟨e₂.jwtSign [("id", u._id)] e₂.SECRET_ACCESS_KEY none,
          d.profile_img, d.username, d.fullname⟩⟩ ∧
      ∀ q, q ≠ req.password →
        (signin ⟨req.email, q⟩ e₂ (signup req e₁ w).2).1 =
          .ok ⟨403, .error "Incorrect password."⟩ := by
  obtain ⟨-, hd, hrun⟩ := signup_200 req e₁ w resp h hs
  have hresp : resp = ⟨200, .data (userData e₁ (newUser e₁ w req))⟩ := by
    rw [hrun] at h
    exact (Except.ok.inj h).symm
  have hfind := find_after_signup e₁ w req hd
  have hsignin : ∀ q, (signin ⟨req.email, q⟩ e₂ (signup req e₁ w).2).1 =
      if q = req.password then .ok ⟨200, .data (userData e₂ (newUser e₁ w req))⟩
      else .ok ⟨403, .error "Incorrect password."⟩ := by
    intro q
    have hw : (signup req e₁ w).2 = ⟨w.users ++ [newUser e₁ w req], savedTrace e₁ w req ++
        [.sign [("id", (newUser e₁ w req)._id)] e₁.SECRET_ACCESS_KEY none]⟩ := by
      rw [hrun]
    rw [hw, signin_run]
    simp only [hf _, hfind]
    have hc := hcmp q
    simp only [newUser] at hc ⊢
    rw [hc]
    by_cases hq : q = req.password
    · simp [hq]
    · simp [hq]
  refine ⟨newUser e₁ w req, userData e₁ (newUser e₁ w req), ?_, hresp, rfl, ?_, ?_⟩
  · rw [hrun]
    simp
  · rw [hsignin, if_pos rfl]
    rfl
  · intro q hq
    rw [hsignin, if_neg hq]

/-- C5, at the request of the end-to-end example. -/
theorem signup_then_signin_witness :
    ∃ u d, u ∈ (signup aliceRequest demoEnv emptyWorld).2.users ∧
      (⟨200, .data (userData demoEnv (newUser demoEnv emptyWorld aliceRequest))⟩ : Response) =
        ⟨200, .data d⟩ ∧
      d.access_token = demoEnv.jwtSign [("id", u._id)] demoEnv.SECRET_ACCESS_KEY none ∧
      (signin ⟨aliceRequest.email, aliceRequest.password⟩ demoEnv
          (signup aliceRequest demoEnv emptyWorld).2).1 =
        .ok ⟨200, .data ⟨demoEnv.jwtSign [("id", u._id)] demoEnv.SECRET_ACCESS_KEY none,
          d.profile_img, d.username, d.fullname⟩⟩ ∧
      ∀ q, q ≠ aliceRequest.password →
        (signin ⟨aliceRequest.email, q⟩ demoEnv (signup aliceRequest demoEnv emptyWorld).2).1 =
          .ok ⟨403, .error "Incorrect password."⟩ :=
  signup_then_signin aliceRequest demoEnv emptyWorld _ rfl rfl demoEnv (fun _ => rfl)
    (fun q => by
      show decide (utf16 "$2b$06$" ++ aliceRequest.password = utf16 "$2b$06$" ++ q) =
        decide (q = aliceRequest.password)
      simp only [List.append_cancel_left_eq]
      exact decide_eq_decide.mpr eq_comm)

/-- C6: when the store holds no user with the part of the email before the first `@` as
username, `generateUserName` returns exactly that part; otherwise it returns that part
followed by exactly 5 characters, the first 5 of the identifier `nanoid()` generates. It asks
the store once, for the unsuffixed name, and never for the suffixed one; and whenever the
calls it makes answer it returns a username, for every string email. -/
theorem generateUserName_allocates (email : JSString) (e : Env) (w : World)
    (hexists : e.fault .userExists = none) :
    (usernameTaken w (email.takeWhile fun c => c != 64) = false →
      generateUserName email e w =
        (.ok (email.takeWhile fun c => c != 64),
          w.record (.exists (email.takeWhile fun c => c != 64)))) ∧
    (usernameTaken w (email.takeWhile fun c => c != 64) = true → e.fault .nanoid = none →
      generateUserName email e w =
        (.ok ((email.takeWhile fun c => c != 64) ++ e.nanoid.take 5),
          (w.record (.exists (email.takeWhile fun c => c != 64))).record .nanoid) ∧
      (e.nanoid.take 5).length = 5) := by
  rw [generateUserName_run, hexists, ← emailLocal_eq]
  refine ⟨?_, ?_⟩
  · intro ht
    simp only [ht, Bool.false_eq_true, if_false]
  · intro ht hn
    refine ⟨?_, ?_⟩
    · simp only [ht, if_true, hn, substring_zero]
    · rw [List.length_take, e.nanoid_length]
      rfl

/-- C6, at two emails with the local part `alice`: on the empty collection the username is
`alice`; on a collection that holds both `alice` and `aliceV1StG` it is `aliceV1StG`, the
suffixed name not being looked up. -/
theorem generateUserName_allocates_witness :
    generateUserName (utf16 "alice@example.com") demoEnv emptyWorld =
        (.ok (utf16 "alice"), emptyWorld.record (.exists (utf16 "alice"))) ∧
      usernameTaken crowdedWorld (utf16 "aliceV1StG") = true ∧
      generateUserName (utf16 "alice@other.org") demoEnv crowdedWorld =
        (.ok (utf16 "aliceV1StG"),
          (crowdedWorld.record (.exists (utf16 "alice"))).record .nanoid) :=
  ⟨(generateUserName_allocates (utf16 "alice@example.com") demoEnv emptyWorld rfl).1
      (by decide),
    by decide,
    ((generateUserName_allocates (utf16 "alice@other.org") demoEnv crowdedWorld rfl).2
      (by decide) rfl).1⟩

/-- What the `catch` clause of signup answers to a request that passed the checks, in an
environment whose faults are not duplicate-key errors (none carries the code 11000): the
answer `Email already exists.` is given when a unique index refused the document, be it the
index on the email or, where the schema declares one, the index on the username; and when
hashing, the username lookup or the save faults, the answer is status 500 with
`Internal Server Error`. -/
theorem signup_caught_answer (req : SignupBody) (e : Env) (w : World) (hv : validSignup req = true)
    (hkind : ∀ c err, e.fault c = some err → err.code ≠ some 11000) :
    ((signup req e w).1 = .ok ⟨500, .error "Email already exists."⟩ →
      emailTaken w req.email = true ∨
        (e.uniqueUsername = true ∧ usernameTaken w (allocated e w req.email) = true)) ∧
    (∀ err, (e.fault .bcryptHash = some err ∨ e.fault .userExists = some err ∨
        e.fault .userSave = some err) →
      (signup req e w).1 = .ok ⟨500, .error "Internal Server Error"⟩) := by
  have hne : (⟨500, .error "Internal Server Error"⟩ : Response) ≠
      ⟨500, .error "Email already exists."⟩ := by decide
  rcases signup_valid req e w hv with ⟨c, err, hc, h', _⟩ | ⟨err, hc, h', _⟩ |
    ⟨h1, h2, h3, _, hd, h'⟩ | ⟨h1, h2, h3, _, _, _, h'⟩
  · rw [signupCaught_of_other (hkind c err hc)] at h'
    refine ⟨fun h => ?_, fun _ _ => h'⟩
    rw [h'] at h
    exact absurd (Except.ok.inj h) hne
  · rw [signupCaught_of_other (hkind _ err hc)] at h'
    refine ⟨fun h => ?_, fun _ _ => h'⟩
    rw [h'] at h
    exact absurd (Except.ok.inj h) hne
  · refine ⟨fun _ => ?_, ?_⟩
    · simpa [duplicateKey, newUser] using hd
    · rintro err (h | h | h)
      · rw [h1] at h
        exact absurd h (by simp)
      · rw [h2] at h
        exact absurd h (by simp)
      · rw [h3] at h
        exact absurd h (by simp)
  · refine ⟨fun h => ?_, ?_⟩
    · rw [h'] at h
      exact absurd (congrArg Response.status (Except.ok.inj h))
        (show (200 : Nat) ≠ 500 by decide)
    · rintro err (h | h | h)
      · rw [h1] at h
        exact absurd h (by simp)
      · rw [h2] at h
        exact absurd h (by simp)
      · rw [h3] at h
        exact absurd h (by simp)

/-- C7: the code breaks the claim on a collection that holds the usernames `alice` and
`aliceV1StG` and no user of email `alice@other.org`, at a valid signup with that email for
which `nanoid()` returns an identifier starting `V1StG`. The helper `generateUserName`
returns `aliceV1StG`, a username the collection holds. Where the schema declares the
username unique, the save is refused and signup answers 500 `Email already exists.`, the
email not being stored and the collection left as it was; where it does not, signup answers
200 and stores a second user of that username. -/
theorem signup_conflict_failing_input :
    validSignup ⟨utf16 "Alice Jones", utf16 "alice@other.org", utf16 "Abcde1"⟩ = true ∧
      emailTaken crowdedWorld (utf16 "alice@other.org") = false ∧
      (generateUserName (utf16 "alice@other.org") demoEnv crowdedWorld).1 =
        .ok (utf16 "aliceV1StG") ∧
      usernameTaken crowdedWorld (utf16 "aliceV1StG") = true ∧
      demoEnv.uniqueUsername = true ∧
      (signup ⟨utf16 "Alice Jones", utf16 "alice@other.org", utf16 "Abcde1"⟩ demoEnv
        crowdedWorld).1 = .ok ⟨500, .error "Email already exists."⟩ ∧
      (signup ⟨utf16 "Alice Jones", utf16 "alice@other.org", utf16 "Abcde1"⟩ demoEnv
        crowdedWorld).2.users = crowdedWorld.users ∧
      looseEnv.uniqueUsername = false ∧
      (signup ⟨utf16 "Alice Jones", utf16 "alice@other.org", utf16 "Abcde1"⟩ looseEnv
        crowdedWorld).1 =
        .ok ⟨200, .data ⟨looseEnv.jwtSign [("id", 3)] looseEnv.SECRET_ACCESS_KEY none, none,
          utf16 "aliceV1StG", utf16 "Alice Jones"⟩⟩ ∧
      ((signup ⟨utf16 "Alice Jones", utf16 "alice@other.org", utf16 "Abcde1"⟩ looseEnv
        crowdedWorld).2.users.map fun u => u.personal_info.username) =
        [utf16 "alice", utf16 "aliceV1StG", utf16 "aliceV1StG"] :=
  ⟨by decide, by decide, rfl, by decide, rfl, rfl, rfl, rfl, rfl, by decide⟩

/-- C8: signin never changes the collection; and in an environment whose calls answer it is
answered with status 403 and `Email not found.` exactly when no stored user has the email,
with status 403 and `Incorrect password.` exactly when a stored user has the email and the
comparison of the password with that user's stored hash returns false, and with status 200
and that user's data otherwise, so that neither rejection has status 500. -/
theorem signin_outcomes (req : SigninBody) (e : Env) (w : World) :
    (signin req e w).2.users = w.users ∧
    (e.faultless →
      ((signin req e w).1 = .ok ⟨403, .error "Email not found."⟩ ↔
        ∀ u ∈ w.users, u.personal_info.email ≠ req.email) ∧
      ((signin req e w).1 = .ok ⟨403, .error "Incorrect password."⟩ ↔
        ∃ u, w.users.find? (fun u => u.personal_info.email == req.email) = some u ∧
          e.bcryptCompare req.password u.personal_info.password = false) ∧
      (∀ u, w.users.find? (fun u => u.personal_info.email == req.email) = some u →
        e.bcryptCompare req.password u.personal_info.password = true →
        (signin req e w).1 = .ok ⟨200, .data (userData e u)⟩) ∧
      ∃ resp, (signin req e w).1 = .ok resp ∧ resp.status ≠ 500) := by
  refine ⟨?_, ?_⟩
  · rw [signin_run]
    repeat' first
      | rfl
      | split
  · intro hf
    rw [signin_run]
    simp only [hf _]
    cases hfind : (w.users.find? fun u => u.personal_info.email == req.email) with
    | none =>
      have hall : ∀ u ∈ w.users, u.personal_info.email ≠ req.email := by
        intro u hu
        have := List.find?_eq_none.mp hfind u hu
        simpa using this
      refine ⟨⟨fun _ => hall, fun _ => rfl⟩, ⟨fun h => ?_, fun h => ?_⟩, ?_, ⟨_, rfl, by decide⟩⟩
      · exact absurd (Except.ok.inj h) (by decide)
      · obtain ⟨u, hu, _⟩ := h
        exact absurd hu (by simp)
      · intro u hu
        exact absurd hu (by simp)
    | some u =>
      have hmem : u ∈ w.users := List.mem_of_find?_eq_some hfind
      have hemail : u.personal_info.email = req.email := by
        have := List.find?_some hfind
        simpa using this
      simp only
      cases hcmp : e.bcryptCompare req.password u.personal_info.password with
      | false =>
        refine ⟨⟨fun h => ?_, fun h => ?_⟩, ⟨fun _ => ⟨u, rfl, hcmp⟩, fun _ => rfl⟩, ?_,
          ⟨_, rfl, by decide⟩⟩
        · exact absurd (Except.ok.inj h) (by decide)
        · exact absurd hemail (h u hmem)
        · intro v hv hcv
          rw [← Option.some.inj hv, hcmp] at hcv
          exact absurd hcv (by decide)
      | true =>
        refine ⟨⟨fun h => ?_, fun h => ?_⟩, ⟨fun h => ?_, fun h => ?_⟩, ?_,
          ⟨_, rfl, show (200 : Nat) ≠ 500 by decide⟩⟩
        · exact absurd (congrArg Response.status (Except.ok.inj h))
            (show (200 : Nat) ≠ 403 by decide)
        · exact absurd hemail (h u hmem)
        · exact absurd (congrArg Response.status (Except.ok.inj h))
            (show (200 : Nat) ≠ 403 by decide)
        · obtain ⟨v, hv, hcv⟩ := h
          rw [← Option.some.inj hv, hcmp] at hcv
          exact absurd hcv (by decide)
        · intro v hv _
          rw [← Option.some.inj hv]
          rfl

/-- C8, on the world the signup of the end-to-end example leaves: an unknown email, the wrong
password and the right one. -/
theorem signin_outcomes_witness :
    (signin ⟨utf16 "bob@example.com", utf16 "Abcde1"⟩ demoEnv
        (signup aliceRequest demoEnv emptyWorld).2).1 = .ok ⟨403, .error "Email not found."⟩ ∧
      (signin ⟨utf16 "alice@example.com", utf16 "Abcde2"⟩ demoEnv
        (signup aliceRequest demoEnv emptyWorld).2).1 =
          .ok ⟨403, .error "Incorrect password."⟩ ∧
      (signin ⟨utf16 "alice@example.com", utf16 "Abcde1"⟩ demoEnv
        (signup aliceRequest demoEnv emptyWorld).2).1 =
          .ok ⟨200, .data (userData demoEnv (newUser demoEnv emptyWorld aliceRequest))⟩ :=
  ⟨((signin_outcomes ⟨utf16 "bob@example.com", utf16 "Abcde1"⟩ demoEnv
      (signup aliceRequest demoEnv emptyWorld).2).2 (fun _ => rfl)).1.mpr (by decide),
    ((signin_outcomes ⟨utf16 "alice@example.com", utf16 "Abcde2"⟩ demoEnv
      (signup aliceRequest demoEnv emptyWorld).2).2 (fun _ => rfl)).2.1.mpr
        ⟨newUser demoEnv emptyWorld aliceRequest, rfl, by decide⟩,
    ((signin_outcomes ⟨utf16 "alice@example.com", utf16 "Abcde1"⟩ demoEnv
      (signup aliceRequest demoEnv emptyWorld).2).2 (fun _ => rfl)).2.2.1
        (newUser demoEnv emptyWorld aliceRequest) rfl (by decide)⟩

/-- C9: what `formatDatatoSend` returns for a user carries as access token the result of the
signer called with the payload whose only claim is `id`, the identifier of that user, with
the process-wide secret, and with no options, hence no expiration. In every 200 response of
signup and of signin the data are those of a stored user, and the call of the signer for that
user is the last of the request and its only call of the signer. Both handlers do reach that
response: when the calls answer, a signup that passes the checks and meets no duplicate key
answers 200 with the token signed for the identifier of the user it stored, and a signin whose
email is stored and whose password compares true answers 200 with the token signed for the
identifier of the user found. -/
theorem access_token_claim :
    (∀ (user : User) (e : Env) (w : World) (d : UserData) (w' : World),
      formatDatatoSend user e w = (.ok d, w') →
        d = ⟨e.jwtSign [("id", user._id)] e.SECRET_ACCESS_KEY none,
            user.personal_info.profile_img, user.personal_info.username,
            user.personal_info.fullname⟩ ∧
          w' = w.record (.sign [("id", user._id)] e.SECRET_ACCESS_KEY none)) ∧
    (∀ (req : SignupBody) (e : Env) (w : World) (resp : Response),
      (signup req e w).1 = .ok resp → resp.status = 200 →
        ∃ u ∈ (signup req e w).2.users, resp = ⟨200, .data (userData e u)⟩ ∧
          ∃ tr, (signup req e w).2.trace =
              w.trace ++ tr ++ [.sign [("id", u._id)] e.SECRET_ACCESS_KEY none] ∧
            ∀ ev ∈ tr, ev.isSign = false) ∧
    (∀ (req : SigninBody) (e : Env) (w : World) (resp : Response),
      (signin req e w).1 = .ok resp → resp.status = 200 →
        ∃ u ∈ (signin req e w).2.users, resp = ⟨200, .data (userData e u)⟩ ∧
          ∃ tr, (signin req e w).2.trace =
              w.trace ++ tr ++ [.sign [("id", u._id)] e.SECRET_ACCESS_KEY none] ∧
            ∀ ev ∈ tr, ev.isSign = false) ∧
    (∀ (req : SignupBody) (e : Env) (w : World),
      e.faultless → validSignup req = true → duplicateKey e w (newUser e w req) = false →
        signup req e w =
          (.ok ⟨200, .data ⟨e.jwtSign [("id", freshId w.users)] e.SECRET_ACCESS_KEY none,
              e.profileImgDefault, allocated e w req.email, req.fullname⟩⟩,
            ⟨w.users ++ [⟨freshId w.users, ⟨req.fullname, req.email,
                e.bcryptHash req.password 6, allocated e w req.email, e.profileImgDefault⟩⟩],
              savedTrace e w req ++
                [.sign [("id", freshId w.users)] e.SECRET_ACCESS_KEY none]⟩)) ∧
    (∀ (req : SigninBody) (e : Env) (w : World) (u : User),
      e.faultless →
        w.users.find? (fun u => u.personal_info.email == req.email) = some u →
        e.bcryptCompare req.password u.personal_info.password = true →
        signin req e w =
          (.ok ⟨200, .data ⟨e.jwtSign [("id", u._id)] e.SECRET_ACCESS_KEY none,
              u.personal_info.profile_img, u.personal_info.username,
              u.personal_info.fullname⟩⟩,
            ⟨w.users, w.trace ++ [.findOne req.email,
              .compare req.password u.personal_info.password,
              .sign [("id", u._id)] e.SECRET_ACCESS_KEY none]⟩)) := by
  refine ⟨?_, ?_, ?_, ?_, ?_⟩
  · intro user e w d w' h
    simp only [formatDatatoSend, M.bind_run, M.env, jwt.sign, M.call, M.pure_run] at h
    cases hf : e.fault .jwtSign with
    | some err =>
      rw [hf] at h
      exact absurd (congrArg Prod.fst h) (by simp)
    | none =>
      rw [hf] at h
      have h1 := congrArg Prod.fst h
      have h2 := congrArg Prod.snd h
      simp only at h1 h2
      exact ⟨(Except.ok.inj h1).symm, h2.symm⟩
  · intro req e w resp h hs
    obtain ⟨-, -, hrun⟩ := signup_200 req e w resp h hs
    rw [hrun] at h
    rw [hrun]
    refine ⟨newUser e w req, by simp, (Except.ok.inj h).symm,
      [.hash req.password 6] ++ allocationTrace w req.email ++ [.save (newUser e w req)],
      by simp [savedTrace], ?_⟩
    intro ev hev
    simp only [allocationTrace, List.mem_append, List.mem_singleton] at hev
    rcases hev with (rfl | hev) | rfl
    · rfl
    · split at hev
      · simp only [List.mem_cons, List.mem_singleton, List.not_mem_nil, or_false] at hev
        rcases hev with rfl | rfl <;> rfl
      · rw [List.mem_singleton.mp hev]
        rfl
    · rfl
  · intro req e w resp h hs
    rw [signin_run] at h ⊢
    cases hf1 : e.fault .userFindOne with
    | some err =>
      rw [hf1] at h
      rw [← Except.ok.inj h] at hs
      exact absurd hs (by decide)
    | none =>
      rw [hf1] at h
      simp only at h ⊢
      cases hfind : (w.users.find? fun u => u.personal_info.email == req.email) with
      | none =>
        rw [hfind] at h
        rw [← Except.ok.inj h] at hs
        exact absurd hs (by decide)
      | some u =>
        rw [hfind] at h
        simp only at h ⊢
        cases hf2 : e.fault .bcryptCompare with
        | some err =>
          rw [hf2] at h
          rw [← Except.ok.inj h] at hs
          exact absurd hs (by decide)
        | none =>
          rw [hf2] at h
          simp only at h ⊢
          cases hcmp : e.bcryptCompare req.password u.personal_info.password with
          | false =>
            rw [hcmp] at h
            rw [← Except.ok.inj h] at hs
            exact absurd hs (by decide)
          | true =>
            rw [hcmp] at h
            simp only [if_true] at h ⊢
            cases hf3 : e.fault .jwtSign with
            | some err =>
              rw [hf3] at h
              rw [← Except.ok.inj h] at hs
              exact absurd hs (by decide)
            | none =>
              rw [hf3] at h
              refine ⟨u, List.mem_of_find?_eq_some hfind, (Except.ok.inj h).symm,
                [.findOne req.email, .compare req.password u.personal_info.password],
                by simp [World.record], ?_⟩
              intro ev hev
              simp only [List.mem_cons, List.mem_singleton, List.not_mem_nil, or_false] at hev
              rcases hev with rfl | rfl <;> rfl
  · intro req e w hf hv hd
    rcases signup_valid req e w hv with ⟨c, err, hc, _, _⟩ | ⟨err, hc, _, _⟩ |
      ⟨_, _, _, _, hd', _⟩ | ⟨_, _, _, _, _, _, h'⟩
    · rw [hf c] at hc
      exact absurd hc (by simp)
    · rw [hf _] at hc
      exact absurd hc (by simp)
    · rw [hd] at hd'
      exact absurd hd' (by decide)
    · rw [h']
      rfl
  · intro req e w u hf hfind hcmp
    rw [signin_run]
    simp only [hf _, hfind, hcmp, if_true, World.record, List.append_assoc, List.singleton_append]
    rfl

/-- C9, at the end-to-end example, run in full: the signup answers 200 with the token the
signer made of the payload with the one claim `id`, the identifier 1 of the user it stored,
and its trace ends with that call of the signer; the signin that follows, with the same email
and password, answers 200 with the token for the same identifier, its trace ending with its
own call of the signer, the only one it makes. -/
theorem access_token_claim_witness :
    signup aliceRequest demoEnv emptyWorld =
        (.ok ⟨200, .data ⟨demoEnv.jwtSign [("id", 1)] demoEnv.SECRET_ACCESS_KEY none, none,
            utf16 "alice", utf16 "Alice Smith"⟩⟩,
          ⟨[⟨1, ⟨utf16 "Alice Smith", utf16 "alice@example.com", utf16 "$2b$06$Abcde1",
              utf16 "alice", none⟩⟩],
            [.hash (utf16 "Abcde1") 6, .exists (utf16 "alice"),
              .save ⟨1, ⟨utf16 "Alice Smith", utf16 "alice@example.com", utf16 "$2b$06$Abcde1",
                utf16 "alice", none⟩⟩,
              .sign [("id", 1)] (utf16 "secret") none]⟩) ∧
      signin ⟨utf16 "alice@example.com", utf16 "Abcde1"⟩ demoEnv
          (signup aliceRequest demoEnv emptyWorld).2 =
        (.ok ⟨200, .data ⟨demoEnv.jwtSign [("id", 1)] demoEnv.SECRET_ACCESS_KEY none, none,
            utf16 "alice", utf16 "Alice Smith"⟩⟩,
          ⟨(signup aliceRequest demoEnv emptyWorld).2.users,
            (signup aliceRequest demoEnv emptyWorld).2.trace ++
              [.findOne (utf16 "alice@example.com"),
                .compare (utf16 "Abcde1") (utf16 "$2b$06$Abcde1"),
                .sign [("id", 1)] (utf16 "secret") none]⟩) ∧
      (∃ u ∈ (signin ⟨utf16 "alice@example.com", utf16 "Abcde1"⟩ demoEnv
            (signup aliceRequest demoEnv emptyWorld).2).2.users,
        (⟨200, .data ⟨demoEnv.jwtSign [("id", 1)] demoEnv.SECRET_ACCESS_KEY none, none,
            utf16 "alice", utf16 "Alice Smith"⟩⟩ : Response) =
            ⟨200, .data (userData demoEnv u)⟩ ∧
          ∃ tr, (signin ⟨utf16 "alice@example.com", utf16 "Abcde1"⟩ demoEnv
                (signup aliceRequest demoEnv emptyWorld).2).2.trace =
              (signup aliceRequest demoEnv emptyWorld).2.trace ++ tr ++
                [.sign [("id", u._id)] demoEnv.SECRET_ACCESS_KEY none] ∧
            ∀ ev ∈ tr, ev.isSign = false) ∧
      ∃ u ∈ (signup aliceRequest demoEnv emptyWorld).2.users,
        (⟨200, .data ⟨demoEnv.jwtSign [("id", 1)] demoEnv.SECRET_ACCESS_KEY none, none,
            utf16 "alice", utf16 "Alice Smith"⟩⟩ : Response) =
            ⟨200, .data (userData demoEnv u)⟩ ∧
          ∃ tr, (signup aliceRequest demoEnv emptyWorld).2.trace =
              emptyWorld.trace ++ tr ++
                [.sign [("id", u._id)] demoEnv.SECRET_ACCESS_KEY none] ∧
            ∀ ev ∈ tr, ev.isSign = false :=
  ⟨access_token_claim.2.2.2.1 aliceRequest demoEnv emptyWorld (fun _ => rfl) (by decide)
      (by decide),
    access_token_claim.2.2.2.2 ⟨utf16 "alice@example.com", utf16 "Abcde1"⟩ demoEnv
      (signup aliceRequest demoEnv emptyWorld).2
      ⟨1, ⟨utf16 "Alice Smith", utf16 "alice@example.com", utf16 "$2b$06$Abcde1",
        utf16 "alice", none⟩⟩ (fun _ => rfl) (by decide) (by decide),
    access_token_claim.2.2.1 ⟨utf16 "alice@example.com", utf16 "Abcde1"⟩ demoEnv
      (signup aliceRequest demoEnv emptyWorld).2 _ rfl rfl,
    access_token_claim.2.1 aliceRequest demoEnv emptyWorld _ rfl rfl⟩

/-- C10: a signup that answers 200 adds exactly one user, whose password field is the output
of the hash function applied to the submitted password with cost factor 6, and its response
body is the data made of access token, profile image, username and full name, none of which
depends on the password: two signups in the same environment and world that differ only in
their password and both answer 200 answer the same. A signup that fails a check answers 403
and leaves the world, the collection included, as it was. -/
theorem signup_password_secrecy (req : SignupBody) (e : Env) (w : World) (resp : Response)
    (h : (signup req e w).1 = .ok resp) :
    (resp.status = 200 →
      (∃ u, (signup req e w).2.users = w.users ++ [u] ∧
        u.personal_info.password = e.bcryptHash req.password 6 ∧
        .hash req.password 6 ∈ (signup req e w).2.trace ∧
        resp = ⟨200, .data ⟨e.jwtSign [("id", u._id)] e.SECRET_ACCESS_KEY none,
          u.personal_info.profile_img, u.personal_info.username, u.personal_info.fullname⟩⟩) ∧
      ∀ password resp', (signup ⟨req.fullname, req.email, password⟩ e w).1 = .ok resp' →
        resp'.status = 200 → resp' = resp) ∧
    (validSignup req = false → resp.status = 403 ∧ (signup req e w).2 = w) := by
  refine ⟨fun hs => ?_, fun hv => ?_⟩
  · obtain ⟨-, -, hrun⟩ := signup_200 req e w resp h hs
    have hresp : resp = ⟨200, .data (userData e (newUser e w req))⟩ := by
      rw [hrun] at h
      exact (Except.ok.inj h).symm
    refine ⟨⟨newUser e w req, by rw [hrun], rfl, ?_, hresp⟩, ?_⟩
    · rw [hrun]
      simp [savedTrace]
    · intro password resp' h' hs'
      obtain ⟨-, -, hrun'⟩ := signup_200 _ e w resp' h' hs'
      rw [hrun'] at h'
      rw [hresp, ← Except.ok.inj h']
      rfl
  · rw [signup_invalid req e w hv] at h ⊢
    rw [← Except.ok.inj h]
    exact ⟨rfl, rfl⟩

/-- C10, at the end-to-end example: the stored password is the hash of `Abcde1`, and the
same request with the password `Zyxwv9` gets the same response. -/
theorem signup_password_secrecy_witness :
    ((∃ u, (signup aliceRequest demoEnv emptyWorld).2.users = emptyWorld.users ++ [u] ∧
        u.personal_info.password = demoEnv.bcryptHash aliceRequest.password 6 ∧
        .hash aliceRequest.password 6 ∈ (signup aliceRequest demoEnv emptyWorld).2.trace ∧
        (⟨200, .data (userData demoEnv (newUser demoEnv emptyWorld aliceRequest))⟩ : Response) =
          ⟨200, .data ⟨demoEnv.jwtSign [("id", u._id)] demoEnv.SECRET_ACCESS_KEY none,
            u.personal_info.profile_img, u.personal_info.username,
            u.personal_info.fullname⟩⟩) ∧
      ∀ password resp',
        (signup ⟨aliceRequest.fullname, aliceRequest.email, password⟩ demoEnv emptyWorld).1 =
          .ok resp' →
        resp'.status = 200 →
          resp' = ⟨200, .data (userData demoEnv (newUser demoEnv emptyWorld aliceRequest))⟩) ∧
      (signup ⟨aliceRequest.fullname, aliceRequest.email, utf16 "Zyxwv9"⟩ demoEnv emptyWorld).1 =
        (signup aliceRequest demoEnv emptyWorld).1 :=
  ⟨(signup_password_secrecy aliceRequest demoEnv emptyWorld _ rfl).1 rfl, rfl⟩

end Server
